import Mathlib

/-!
# Verification of the realtime signaling relay (`src/webrtcSignaling.js`)

This file is a shallow embedding of the WebSocket signaling subsystem of the
speexify backend.  The source file contains three historical variants of the
module; the embedding follows the final one (the `setupWebRtcSignaling`
implementation with `createRoomManager`, connection tracking, rate limiting,
heartbeat and the HTTP-upgrade gatekeeper), which is the variant the
repository actually exports.

Modelling conventions:
* A WebSocket is identified by a natural number.  `ServerState.openSet` holds
  the sockets whose `readyState === WebSocket.OPEN`.
* JavaScript `Map`s become association lists (`List (κ × α)`); `Map.get` is
  `lookupA`, `Map.set` is `setA`, `Map.delete` is `eraseA`.  Iteration order
  of these maps is never observable in the verified properties.
* JavaScript `Set`s of sockets become duplicate-free `List Nat`s; `Set.add`
  appends (`addMem`), `Set.delete` filters (`delMem`), preserving insertion
  order exactly as the JS runtime does.
* The per-socket metadata object of `getMeta` becomes the `Meta` structure,
  stored in an association list with the same default field values as the
  source.
* Side effects (`ws.send`, `ws.close`, `ws.terminate`, `ws.ping`) are
  reified as an `Act` list returned next to the new state.  `safeSend`
  mirrors the source helper: it emits nothing when the target is not open.
* `JSON.stringify` (a platform builtin, not repository code) is modelled by
  `jsonStringify` over a JSON value type; escaping of control characters is
  elided, which does not affect any verified property.
-/

/-! ## Association list helpers (JavaScript `Map`) -/

def lookupA {α : Type} {β : Type} [DecidableEq α] (k : α) : List (α × β) → Option β
  | [] => none
  | (k0, v) :: rest => if k0 = k then some v else lookupA k rest

def eraseA {α : Type} {β : Type} [DecidableEq α] (k : α) (l : List (α × β)) : List (α × β) :=
  l.filter (fun p => decide (p.1 ≠ k))

def setA {α : Type} {β : Type} [DecidableEq α] (k : α) (v : β) (l : List (α × β)) :
    List (α × β) :=
  (k, v) :: eraseA k l

@[simp] theorem lookupA_nil {α β : Type} [DecidableEq α] (k : α) :
    lookupA k ([] : List (α × β)) = none := rfl

@[simp] theorem lookupA_cons {α β : Type} [DecidableEq α] (k k0 : α) (v : β) (l : List (α × β)) :
    lookupA k ((k0, v) :: l) = if k0 = k then some v else lookupA k l := rfl

@[simp] theorem lookupA_eraseA_self {α β : Type} [DecidableEq α] (k : α) (l : List (α × β)) :
    lookupA k (eraseA k l) = none := by
  induction l with
  | nil => rfl
  | cons p rest ih =>
    cases p with
    | mk k0 v =>
      by_cases h : k0 = k
      · simpa [eraseA, List.filter_cons, h] using ih
      · simpa [eraseA, List.filter_cons, h] using ih

theorem lookupA_eraseA_ne {α β : Type} [DecidableEq α] {k k2 : α} (l : List (α × β))
    (h : k2 ≠ k) : lookupA k2 (eraseA k l) = lookupA k2 l := by
  induction l with
  | nil => rfl
  | cons p rest ih =>
    cases p with
    | mk k0 v =>
      by_cases h0 : k0 = k
      · subst h0
        simpa [eraseA, List.filter_cons, Ne.symm h] using ih
      · by_cases h2 : k0 = k2
        · subst h2
          simp [eraseA, List.filter_cons, h0, h]
        · simp only [eraseA, ne_eq, decide_not, List.filter_cons] at ih ⊢
          simp [h0, h2, ih]

@[simp] theorem lookupA_setA_self {α β : Type} [DecidableEq α] (k : α) (v : β)
    (l : List (α × β)) : lookupA k (setA k v l) = some v := by
  simp [setA]

theorem lookupA_setA_ne {α β : Type} [DecidableEq α] {k k2 : α} (v : β) (l : List (α × β))
    (h : k2 ≠ k) : lookupA k2 (setA k v l) = lookupA k2 l := by
  simp [setA, Ne.symm h, lookupA_eraseA_ne l h]

theorem mem_of_lookupA_eq_some {α β : Type} [DecidableEq α] {k : α} {v : β}
    {l : List (α × β)} (h : lookupA k l = some v) : (k, v) ∈ l := by
  induction l with
  | nil => simp at h
  | cons p rest ih =>
    cases p with
    | mk k0 v0 =>
      by_cases h0 : k0 = k
      · subst h0
        simp at h
        subst h
        exact List.mem_cons_self _ _
      · simp [h0] at h
        exact List.mem_cons_of_mem _ (ih h)

theorem mem_eraseA_sub {α β : Type} [DecidableEq α] {k : α} {p : α × β} {l : List (α × β)}
    (h : p ∈ eraseA k l) : p ∈ l :=
  List.mem_of_mem_filter h

theorem mem_setA_cases {α β : Type} [DecidableEq α] {k : α} {v : β} {p : α × β}
    {l : List (α × β)} (h : p ∈ setA k v l) : p = (k, v) ∨ p ∈ l := by
  rcases List.mem_cons.mp h with h | h
  · exact Or.inl h
  · exact Or.inr (mem_eraseA_sub h)

/-! ## Membership-set helpers (JavaScript `Set` of sockets) -/

def addMem (w : Nat) (l : List Nat) : List Nat :=
  if w ∈ l then l else l ++ [w]

def delMem (w : Nat) (l : List Nat) : List Nat :=
  l.filter (fun x => decide (x ≠ w))

@[simp] theorem mem_delMem {w x : Nat} {l : List Nat} :
    x ∈ delMem w l ↔ x ∈ l ∧ x ≠ w := by
  simp [delMem]

@[simp] theorem not_mem_delMem_self (w : Nat) (l : List Nat) : w ∉ delMem w l := by
  simp

theorem mem_addMem_cases {w x : Nat} {l : List Nat} (h : x ∈ addMem w l) :
    x ∈ l ∨ x = w := by
  by_cases hw : w ∈ l
  · simp [addMem, hw] at h; exact Or.inl h
  · simp [addMem, hw] at h
    rcases h with h | h
    · exact Or.inl h
    · exact Or.inr h

theorem delMem_of_not_mem {w : Nat} {l : List Nat} (h : w ∉ l) : delMem w l = l := by
  apply List.filter_eq_self.mpr
  intro b hb
  simp only [ne_eq, decide_eq_true_eq]
  intro hbw
  subst hbw
  exact h hb

theorem length_delMem_of_nodup {w : Nat} {l : List Nat} (hd : l.Nodup) (hm : w ∈ l) :
    (delMem w l).length + 1 = l.length := by
  induction l with
  | nil => simp at hm
  | cons a rest ih =>
    have hd2 := List.nodup_cons.mp hd
    by_cases haw : a = w
    · subst haw
      have hrest : delMem a rest = rest := delMem_of_not_mem hd2.1
      have h1 : delMem a (a :: rest) = delMem a rest := by
        simp [delMem, List.filter_cons]
      rw [h1, hrest]
      simp
    · have hm2 : w ∈ rest := by
        rcases List.mem_cons.mp hm with h | h
        · exact absurd h.symm haw
        · exact h
      have hlen := ih hd2.2 hm2
      simp [delMem, List.filter_cons, haw] at hlen ⊢
      omega

/-! ## JSON values and serialization (`JSON.stringify` builtin) -/

mutual

inductive JVal : Type where
  | null : JVal
  | bool (b : Bool) : JVal
  | num (n : Int) : JVal
  | str (s : String) : JVal
  | arr (xs : JArr) : JVal
  | obj (fs : JObj) : JVal

inductive JArr : Type where
  | nil : JArr
  | cons (hd : JVal) (tl : JArr) : JArr

inductive JObj : Type where
  | nil : JObj
  | cons (key : String) (val : JVal) (tl : JObj) : JObj

end

deriving instance DecidableEq for JVal, JArr, JObj

def escapeJsonChar (c : Char) : String :=
  if c = '"' then "\\\"" else if c = '\\' then "\\\\" else String.singleton c

def escapeJson (s : String) : String :=
  String.join (s.data.map escapeJsonChar)

mutual

def jsonStringify : JVal → String
  | .null => "null"
  | .bool true => "true"
  | .bool false => "false"
  | .num n => toString n
  | .str s => "\"" ++ escapeJson s ++ "\""
  | .arr xs => "[" ++ jsonStringifyArr xs ++ "]"
  | .obj fs => "\x7b" ++ jsonStringifyObj fs ++ "\x7d"

def jsonStringifyArr : JArr → String
  | .nil => ""
  | .cons x .nil => jsonStringify x
  | .cons x (.cons y rest) => jsonStringify x ++ "," ++ jsonStringifyArr (JArr.cons y rest)

def jsonStringifyObj : JObj → String
  | .nil => ""
  | .cons k v .nil => "\"" ++ escapeJson k ++ "\":" ++ jsonStringify v
  | .cons k v (.cons k2 v2 rest) =>
      "\"" ++ escapeJson k ++ "\":" ++ jsonStringify v ++ "," ++
        jsonStringifyObj (JObj.cons k2 v2 rest)

end

/-- `typeof msg.data === "string" ? msg.data : JSON.stringify(msg.data)` -/
def serializedData : JVal → String
  | .str s => s
  | v => jsonStringify v

/-! ## Configuration (`CONFIG` object of the source) -/

structure Config : Type where
  AUTH_ENABLED : Bool
  ALLOWED_ORIGINS : Option (List String)
  RATE_LIMIT_ENABLED : Bool
  RATE_LIMIT_WINDOW_MS : Int
  RATE_LIMIT_MAX_MESSAGES : Nat
  MAX_CONNECTIONS_TOTAL : Nat
  MAX_CONNECTIONS_PER_IP : Nat
  MAX_TOTAL_ROOMS : Nat
  MAX_VIDEO_PEERS : Nat
  MAX_CLASSROOM_PEERS : Nat
  MAX_MESSAGE_SIZE_BYTES : Nat
  VALID_SIGNAL_TYPES : Option (List String)
  MAX_SIGNAL_DATA_SIZE : Nat
deriving DecidableEq, Repr

/-- The constant `CONFIG` of the source file.  `ALLOWED_ORIGINS: []` is
`some []`; `VALID_SIGNAL_TYPES: null` is `none`. -/
def CONFIG : Config where
  AUTH_ENABLED := false
  ALLOWED_ORIGINS := some []
  RATE_LIMIT_ENABLED := true
  RATE_LIMIT_WINDOW_MS := 1000
  RATE_LIMIT_MAX_MESSAGES := 50
  MAX_CONNECTIONS_TOTAL := 10000
  MAX_CONNECTIONS_PER_IP := 50
  MAX_TOTAL_ROOMS := 5000
  MAX_VIDEO_PEERS := 2
  MAX_CLASSROOM_PEERS := 100
  MAX_MESSAGE_SIZE_BYTES := 65536
  VALID_SIGNAL_TYPES := none
  MAX_SIGNAL_DATA_SIZE := 262144

/-! ## Per-socket metadata (`getMeta` / `socketMeta`) -/

structure Meta : Type where
  videoRoomId : Option String := none
  classroomRoomId : Option String := none
  isInitiator : Bool := false
  userId : Option String := none
  ip : Option String := none
  isAlive : Bool := true
  messageTimestamps : List Int := []
deriving DecidableEq, Repr

/-! ## Global server state -/

structure ServerState : Type where
  metas : List (Nat × Meta) := []
  /-- sockets whose `readyState === WebSocket.OPEN` -/
  openSet : List Nat := []
  videoRooms : List (String × List Nat) := []
  videoLocks : List (String × Bool) := []
  classRooms : List (String × List Nat) := []
  classLocks : List (String × Bool) := []
  totalConnections : Nat := 0
  connectionsByIP : List (String × List Nat) := []
deriving DecidableEq, Repr

def initialState : ServerState := {}

def getMeta (s : ServerState) (w : Nat) : Meta :=
  (lookupA w s.metas).getD {}

def setMeta (s : ServerState) (w : Nat) (m : Meta) : ServerState :=
  { s with metas := setA w m s.metas }

def isOpen (s : ServerState) (w : Nat) : Bool :=
  decide (w ∈ s.openSet)

/-- The two logical channels; each has its own `createRoomManager` instance. -/
inductive Channel : Type where
  | video : Channel
  | classroom : Channel
deriving DecidableEq, Repr

def roomsOf : Channel → ServerState → List (String × List Nat)
  | .video, s => s.videoRooms
  | .classroom, s => s.classRooms

def locksOf : Channel → ServerState → List (String × Bool)
  | .video, s => s.videoLocks
  | .classroom, s => s.classLocks

def setRooms : Channel → ServerState → List (String × List Nat) → ServerState
  | .video, s, l => { s with videoRooms := l }
  | .classroom, s, l => { s with classRooms := l }

def setLocks : Channel → ServerState → List (String × Bool) → ServerState
  | .video, s, l => { s with videoLocks := l }
  | .classroom, s, l => { s with classLocks := l }

/-- `meta[roomIdKey]` where `roomIdKey` is `'videoRoomId'` or `'classroomRoomId'`. -/
def keyOf : Channel → Meta → Option String
  | .video, m => m.videoRoomId
  | .classroom, m => m.classroomRoomId

def setKey : Channel → Meta → Option String → Meta
  | .video, m, v => { m with videoRoomId := v }
  | .classroom, m, v => { m with classroomRoomId := v }

/-- Options passed to `createRoomManager` for each channel. -/
structure RoomOptions : Type where
  maxPeers : Nat
  maxRooms : Nat
  notifyOnJoin : Bool
  notifyOnLeave : Bool
  trackInitiator : Bool
deriving DecidableEq, Repr

def chanOpts : Channel → RoomOptions
  | .video =>
      { maxPeers := CONFIG.MAX_VIDEO_PEERS, maxRooms := CONFIG.MAX_TOTAL_ROOMS,
        notifyOnJoin := true, notifyOnLeave := true, trackInitiator := true }
  | .classroom =>
      { maxPeers := CONFIG.MAX_CLASSROOM_PEERS, maxRooms := CONFIG.MAX_TOTAL_ROOMS,
        notifyOnJoin := false, notifyOnLeave := false, trackInitiator := false }

/-! ## Outbound messages and reified side effects -/

inductive OutMsg : Type where
  | joined (roomId : String) (isInitiator : Bool) : OutMsg
  | roomFull : OutMsg
  | peerJoined (roomId : String) : OutMsg
  | peerLeft (roomId : String) : OutMsg
  | signal (signalType : Option String) (data : Option JVal) : OutMsg
  | error (message : String) : OutMsg
deriving DecidableEq

inductive Act : Type where
  | send (ws : Nat) (m : OutMsg) : Act
  | closeSock (ws : Nat) : Act
  | terminateSock (ws : Nat) : Act
  | pingSock (ws : Nat) : Act
deriving DecidableEq

/-- `safeSend`: sends only when the target socket is open. -/
def safeSend (s : ServerState) (ws : Nat) (m : OutMsg) : List Act :=
  if isOpen s ws then [Act.send ws m] else []

/-- A `for (const peer of room) if (peer.readyState === OPEN) safeSend(peer, m)` loop. -/
def sendAll (s : ServerState) (targets : List Nat) (m : OutMsg) : List Act :=
  (targets.filter (fun p => isOpen s p)).map (fun p => Act.send p m)

/-! ## Validation helpers -/

/-- `CONFIG.ROOM_ID_REGEX`: `^[a-zA-Z0-9_-]{1,128}$`. -/
def roomIdOk (r : String) : Bool :=
  decide (1 ≤ r.length) && decide (r.length ≤ 128) &&
    r.data.all (fun ch => ch.isAlphanum || ch = '_' || ch = '-')

/-- `validateRoomId`: returns the validated id or the error reason.  A missing
or non-string `roomId` is `none`; the empty string is falsy in JS and hits the
first guard. -/
def validateRoomId : Option String → Except String String
  | none => Except.error "Invalid roomId"
  | some r =>
      if r = "" then Except.error "Invalid roomId"
      else if roomIdOk r then Except.ok r
      else Except.error "RoomId contains invalid characters or is too long"

/-- `validateSignalPayload`: optional signal-type filter, data-presence check
(`undefined` is `none`, JS `null` is `some JVal.null`), then the serialized
size check.  Returns the error reason, or `none` when valid. -/
def validateSignalPayload (cfg : Config) (signalType : Option String)
    (data : Option JVal) : Option String :=
  let typeBad :=
    match cfg.VALID_SIGNAL_TYPES with
    | none => false
    | some l =>
        if l = [] then false
        else
          match signalType with
          | none => true
          | some t => decide (t = "") || !l.contains t
  if typeBad then some "Invalid signal type"
  else
    match data with
    | none => some "Missing signal data"
    | some d =>
        if d = JVal.null then some "Missing signal data"
        else if (serializedData d).length > cfg.MAX_SIGNAL_DATA_SIZE then
          some "Signal data too large"
        else none

/-- `validateOrigin`: no allowlist (or empty) means no check; a request with
no `Origin` header also passes. -/
def validateOrigin (cfg : Config) (origin : Option String) : Bool :=
  match cfg.ALLOWED_ORIGINS with
  | none => true
  | some l =>
      if l = [] then true
      else
        match origin with
        | none => true
        | some o => l.contains o

/-! ## Connection tracking (`trackConnection` / `untrackConnection`) -/

def trackConnection (s : ServerState) (ws : Nat) (ip : String) : ServerState :=
  let cur := (lookupA ip s.connectionsByIP).getD []
  let m := getMeta s ws
  { s with
    totalConnections := s.totalConnections + 1,
    connectionsByIP := setA ip (addMem ws cur) s.connectionsByIP,
    metas := setA ws { m with ip := some ip } s.metas }

/-- `Math.max(0, totalConnections - 1)` is Nat subtraction.  The per-address
set shrinks only when the socket's recorded ip still maps to a set. -/
def untrackConnection (s : ServerState) (ws : Nat) : ServerState :=
  let s1 := { s with totalConnections := s.totalConnections - 1 }
  match (getMeta s1 ws).ip with
  | none => s1
  | some ip =>
      match lookupA ip s1.connectionsByIP with
      | none => s1
      | some set =>
          let set1 := delMem ws set
          if set1.length = 0 then
            { s1 with connectionsByIP := eraseA ip s1.connectionsByIP }
          else
            { s1 with connectionsByIP := setA ip set1 s1.connectionsByIP }

/-- `canAcceptConnection` (the reason strings of the source are not needed by
any verified property, so only the boolean verdict is modelled). -/
def canAcceptConnection (cfg : Config) (s : ServerState) (ip : String) : Bool :=
  if s.totalConnections ≥ cfg.MAX_CONNECTIONS_TOTAL then false
  else
    match lookupA ip s.connectionsByIP with
    | none => true
    | some set => !decide (set.length ≥ cfg.MAX_CONNECTIONS_PER_IP)

/-! ## Rate limiting (`checkRateLimit`) -/

def checkRateLimit (now : Int) (s : ServerState) (ws : Nat) : Bool × ServerState :=
  if !CONFIG.RATE_LIMIT_ENABLED then (true, s)
  else
    let m := getMeta s ws
    let fresh := m.messageTimestamps.filter (fun t => decide (t > now - CONFIG.RATE_LIMIT_WINDOW_MS))
    if fresh.length ≥ CONFIG.RATE_LIMIT_MAX_MESSAGES then
      (false, setMeta s ws { m with messageTimestamps := fresh })
    else
      (true, setMeta s ws { m with messageTimestamps := fresh ++ [now] })

/-! ## Room manager (`createRoomManager`) -/

structure JoinRes : Type where
  st : ServerState
  acts : List Act
  ok : Bool
deriving DecidableEq

/-- `leave(ws)` of `createRoomManager`. -/
def leaveRM (c : Channel) (s : ServerState) (ws : Nat) : ServerState × List Act :=
  let m := getMeta s ws
  match keyOf c m with
  | none => (s, [])
  | some roomId =>
      match lookupA roomId (roomsOf c s) with
      | none => (setMeta s ws (setKey c m none), [])
      | some room =>
          let room1 := delMem ws room
          let acts :=
            if (chanOpts c).notifyOnLeave then sendAll s room1 (OutMsg.peerLeft roomId) else []
          let s1 :=
            if room1.length = 0 then
              setLocks c (setRooms c s (eraseA roomId (roomsOf c s))) (eraseA roomId (locksOf c s))
            else
              setRooms c s (setA roomId room1 (roomsOf c s))
          (setMeta s1 ws (setKey c m none), acts)

/-- The part of the locked `join` body that runs after the implicit leave:
pruning of dead sockets, no-op success for an existing member, capacity
check, and the actual add with its `joined` acknowledgment and
`peer-joined` notifications.  `actsL` carries the acts already emitted by
the implicit leave. -/
def joinPost (c : Channel) (s2 : ServerState) (actsL : List Act) (ws : Nat)
    (roomId : String) : JoinRes :=
  let opts := chanOpts c
  let roomCur := (lookupA roomId (roomsOf c s2)).getD []
  let roomPruned := roomCur.filter (fun p => isOpen s2 p)
  let s3 := setRooms c s2 (setA roomId roomPruned (roomsOf c s2))
  if ws ∈ roomPruned then
    ⟨setLocks c s3 (setA roomId false (locksOf c s3)), actsL, true⟩
  else if roomPruned.length ≥ opts.maxPeers then
    ⟨setLocks c s3 (setA roomId false (locksOf c s3)),
      actsL ++ safeSend s3 ws OutMsg.roomFull, false⟩
  else
    let newRoom := roomPruned ++ [ws]
    let s4 := setRooms c s3 (setA roomId newRoom (roomsOf c s3))
    let isInit := opts.trackInitiator && decide (newRoom.length = 1)
    let m := getMeta s4 ws
    let m1 := setKey c m (some roomId)
    let m2 := if opts.trackInitiator then { m1 with isInitiator := isInit } else m1
    let s5 := setMeta s4 ws m2
    let actsJ := safeSend s5 ws (OutMsg.joined roomId isInit)
    let actsN :=
      if opts.notifyOnJoin then sendAll s5 newRoom (OutMsg.peerJoined roomId) else []
    ⟨setLocks c s5 (setA roomId false (locksOf c s5)), actsL ++ actsJ ++ actsN, true⟩

/-- The body of `join` that runs while holding the room's advisory lock:
implicit leave of a different previous room, then `joinPost`.  `s1` is the
state in which the lock is held and the room's map entry exists. -/
def joinCore (c : Channel) (s1 : ServerState) (ws : Nat) (roomId : String) : JoinRes :=
  let mkey := keyOf c (getMeta s1 ws)
  let l :=
    if mkey.isSome ∧ mkey ≠ some roomId then leaveRM c s1 ws else (s1, [])
  joinPost c l.1 l.2 ws roomId

/-- `join(ws, roomId)` of `createRoomManager`: roomId validation, total room
limit, the advisory lock, then the locked body (`joinCore`).  A contended
lock causes the source to reschedule the attempt with `setTimeout`; the
immediate effect, which is all a synchronous step observes, is no state
change. -/
def joinRM (c : Channel) (s : ServerState) (ws : Nat) (roomId : String) : JoinRes :=
  let opts := chanOpts c
  match validateRoomId (some roomId) with
  | Except.error reason => ⟨s, safeSend s ws (OutMsg.error reason), false⟩
  | Except.ok _ =>
      if (lookupA roomId (roomsOf c s)).isNone ∧ (roomsOf c s).length ≥ opts.maxRooms then
        ⟨s, safeSend s ws (OutMsg.error "Maximum room limit reached"), false⟩
      else if (lookupA roomId (locksOf c s)).getD false then
        ⟨s, [], false⟩
      else
        let s0 := setLocks c s (setA roomId true (locksOf c s))
        let room0 := (lookupA roomId (roomsOf c s0)).getD []
        let s1 := setRooms c s0 (setA roomId room0 (roomsOf c s0))
        joinCore c s1 ws roomId

/-- `broadcast(ws, message)`: relays to every other open member of the
sender's room. -/
def broadcastRM (c : Channel) (s : ServerState) (ws : Nat) (m : OutMsg) : List Act :=
  match keyOf c (getMeta s ws) with
  | none => []
  | some roomId =>
      match lookupA roomId (roomsOf c s) with
      | none => []
      | some room =>
          (room.filter (fun p => decide (p ≠ ws) && isOpen s p)).map (fun p => Act.send p m)

/-- `getRoomId(ws)`. -/
def getRoomIdRM (c : Channel) (s : ServerState) (ws : Nat) : Option String :=
  keyOf c (getMeta s ws)

/-! ## Message router (`createMessageHandler`) -/

/-- Result of `JSON.parse` plus the `type` dispatch of an inbound frame.
`malformed` is a frame on which `JSON.parse` throws; `untyped` is a parsed
value that is falsy or whose `type` field is falsy. -/
inductive InMsg : Type where
  | malformed : InMsg
  | untyped : InMsg
  | joinMsg (roomId : Option String) : InMsg
  | leaveMsg : InMsg
  | signalMsg (signalType : Option String) (data : Option JVal) : InMsg
  | unknownType (t : String) : InMsg
deriving DecidableEq

/-- The `switch (msg.type)` body of `createMessageHandler` (after the rate
limit and JSON parsing, both handled in `handleMessage`). -/
def dispatchMessage (c : Channel) (s : ServerState) (ws : Nat) (m : InMsg) :
    ServerState × List Act :=
  match m with
  | .malformed => (s, safeSend s ws (OutMsg.error "Invalid JSON"))
  | .untyped => (s, safeSend s ws (OutMsg.error "Missing message type"))
  | .joinMsg rid =>
      match validateRoomId rid with
      | Except.error reason => (s, safeSend s ws (OutMsg.error reason))
      | Except.ok r =>
          let res := joinRM c s ws r
          (res.st, res.acts)
  | .leaveMsg => leaveRM c s ws
  | .signalMsg st d =>
      match getRoomIdRM c s ws with
      | none => (s, safeSend s ws (OutMsg.error "Not in a room"))
      | some _ =>
          match validateSignalPayload CONFIG st d with
          | some reason => (s, safeSend s ws (OutMsg.error reason))
          | none => (s, broadcastRM c s ws (OutMsg.signal st d))
  | .unknownType _ => (s, [])

/-- The handler returned by `createMessageHandler`: rate limiting first, then
parse and dispatch.  `now` is `Date.now()` at receipt. -/
def handleMessage (c : Channel) (now : Int) (s : ServerState) (ws : Nat) (m : InMsg) :
    ServerState × List Act :=
  let rl := checkRateLimit now s ws
  if rl.1 = false then
    (rl.2, safeSend rl.2 ws (OutMsg.error "Rate limit exceeded"))
  else
    dispatchMessage c rl.2 ws m

/-- The `ws.on("message")` wrapper of `createConnectionHandler`: the raw
frame-size guard runs before the message handler.  `rawLen` is the byte
length of the raw frame. -/
def onMessageHandler (c : Channel) (now : Int) (s : ServerState) (ws : Nat)
    (rawLen : Nat) (m : InMsg) : ServerState × List Act :=
  if rawLen > CONFIG.MAX_MESSAGE_SIZE_BYTES then
    (s, safeSend s ws (OutMsg.error "Message too large"))
  else
    handleMessage c now s ws m

/-! ## Socket lifecycle handlers (`createConnectionHandler`) -/

/-- The `connection` handler: record the client ip, track the connection,
and arm the heartbeat flag. -/
def onConnectionHandler (s : ServerState) (ws : Nat) (ip : String) : ServerState :=
  let m := getMeta s ws
  let s1 := setMeta s ws { m with ip := some ip }
  let s2 := trackConnection s1 ws ip
  let m2 := getMeta s2 ws
  setMeta s2 ws { m2 with isAlive := true }

/-- The `ws.on("close")` handler: leave the channel's room, untrack. -/
def onCloseHandler (c : Channel) (s : ServerState) (ws : Nat) : ServerState × List Act :=
  let l := leaveRM c s ws
  (untrackConnection l.1 ws, l.2)

/-- The `ws.on("error")` handler: leave, untrack, terminate the socket. -/
def onErrorHandler (c : Channel) (s : ServerState) (ws : Nat) : ServerState × List Act :=
  let l := leaveRM c s ws
  (untrackConnection l.1 ws, l.2 ++ [Act.terminateSock ws])

/-! ## Heartbeat monitor (`setInterval` sweep) -/

/-- One client's treatment inside the heartbeat sweep. -/
def heartbeatStep (c : Channel) (acc : ServerState × List Act) (ws : Nat) :
    ServerState × List Act :=
  let s := acc.1
  let m := getMeta s ws
  if m.isAlive = false then
    let l := leaveRM c s ws
    (untrackConnection l.1 ws, acc.2 ++ l.2 ++ [Act.terminateSock ws])
  else
    (setMeta s ws { m with isAlive := false }, acc.2 ++ [Act.pingSock ws])

/-- One tick of the channel's heartbeat interval over the server's current
client list (`wss.clients`, maintained by the ws library and passed in). -/
def heartbeatTick (c : Channel) (s : ServerState) (clients : List Nat) :
    ServerState × List Act :=
  clients.foldl (heartbeatStep c) (s, [])

/-! ## Event semantics

A trace is a list of handler invocations.  Per the `ws` library, a socket
that emits `error` subsequently emits `close`, and `ws.terminate()` also
causes the `close` handler to run; traces containing such sequences are
therefore realizable executions. -/

inductive Ev : Type where
  | evConnect (c : Channel) (ws : Nat) (ip : String) : Ev
  | evClose (c : Channel) (ws : Nat) : Ev
  | evError (c : Channel) (ws : Nat) : Ev
  | evMessage (c : Channel) (now : Int) (ws : Nat) (m : InMsg) : Ev
  | evHeartbeat (c : Channel) (clients : List Nat) : Ev
deriving DecidableEq

def stepEv (s : ServerState) : Ev → ServerState
  | .evConnect _ ws ip => onConnectionHandler s ws ip
  | .evClose c ws => (onCloseHandler c s ws).1
  | .evError c ws => (onErrorHandler c s ws).1
  | .evMessage c now ws m => (handleMessage c now s ws m).1
  | .evHeartbeat c clients => (heartbeatTick c s clients).1

def runEvs (s : ServerState) (evs : List Ev) : ServerState :=
  evs.foldl stepEv s

/-- Sum of the sizes of all per-source-address connection sets. -/
def ipSum (s : ServerState) : Nat :=
  (s.connectionsByIP.map (fun p => p.2.length)).sum

/-! ## Connection gatekeeper (`httpServer.on("upgrade")`) -/

structure UpgradeRequest : Type where
  /-- whether `new URL(request.url, "http://localhost")` succeeds -/
  urlParseOk : Bool := true
  /-- the parsed `url.pathname` (meaningful when `urlParseOk`) -/
  pathname : String := "/"
  origin : Option String := none
  secWebSocketProtocol : Option String := none
  /-- `url.searchParams.get("token")` -/
  queryToken : Option String := none
  authorizationHeader : Option String := none
  xForwardedFor : Option String := none
  remoteAddress : Option String := none
deriving DecidableEq

/-- `getClientIP`: first entry of `x-forwarded-for` when present (and truthy),
otherwise the socket's remote address, otherwise `"unknown"`. -/
def getClientIP (r : UpgradeRequest) : String :=
  match r.xForwardedFor with
  | some fwd =>
      if fwd = "" then r.remoteAddress.getD "unknown"
      else (((fwd.splitOn ",").map String.trim).headD "unknown")
  | none => r.remoteAddress.getD "unknown"

/-- The result of `CONFIG.validateToken`. -/
structure TokenResult : Type where
  valid : Bool
  userId : Option String := none
  reason : Option String := none
deriving DecidableEq

/-- JS truthiness of a found token: the empty string is falsy. -/
def truthyStr : Option String → Option String
  | none => none
  | some s => if s = "" then none else some s

/-- Token extraction of `authenticateConnection`: subprotocol header, then
query string, then bearer header; first (truthy) match wins. -/
def extractToken (r : UpgradeRequest) : Option String :=
  let fromProto :=
    match r.secWebSocketProtocol with
    | none => none
    | some ps =>
        if ps = "" then none
        else ((ps.splitOn ",").map String.trim).find? (fun p => decide (p ≠ "websocket"))
  match truthyStr fromProto with
  | some t => some t
  | none =>
      match truthyStr r.queryToken with
      | some t => some t
      | none =>
          match r.authorizationHeader with
          | some h => if h.startsWith "Bearer " then truthyStr (some (h.drop 7)) else none
          | none => none

/-- `authenticateConnection`; the pluggable async validator is passed in as a
function.  Returns the authenticated user id or the failure reason. -/
def authenticateConnection (cfg : Config) (validate : String → TokenResult)
    (r : UpgradeRequest) : Except String String :=
  if cfg.AUTH_ENABLED = false then Except.ok "anonymous"
  else
    match extractToken r with
    | none => Except.error "No authentication token provided"
    | some t =>
        let res := validate t
        if res.valid then Except.ok (res.userId.getD "anonymous")
        else Except.error (res.reason.getD "Invalid token")

/-- Raw actions taken on the upgrade socket.  `wsFrame` is in the type so
that "no WebSocket frame is ever sent during a rejection" is expressible;
the handler never constructs it. -/
inductive UpgradeAct : Type where
  | writeRaw (line : String) : UpgradeAct
  | destroy : UpgradeAct
  | acceptVideo (userId : String) : UpgradeAct
  | acceptClassroom (userId : String) : UpgradeAct
  | wsFrame (m : OutMsg) : UpgradeAct
deriving DecidableEq

/-- The `httpServer.on("upgrade")` gatekeeper: parse, path, origin, quota,
auth — in that order, each short-circuiting. -/
def upgradeHandler (cfg : Config) (validate : String → TokenResult)
    (s : ServerState) (r : UpgradeRequest) : List UpgradeAct :=
  if r.urlParseOk = false then
    [UpgradeAct.writeRaw "HTTP/1.1 400 Bad Request", UpgradeAct.destroy]
  else if r.pathname ≠ "/ws/prep" ∧ r.pathname ≠ "/ws/classroom" then
    [UpgradeAct.destroy]
  else if validateOrigin cfg r.origin = false then
    [UpgradeAct.writeRaw "HTTP/1.1 403 Forbidden", UpgradeAct.destroy]
  else if canAcceptConnection cfg s (getClientIP r) = false then
    [UpgradeAct.writeRaw "HTTP/1.1 503 Service Unavailable", UpgradeAct.destroy]
  else
    match authenticateConnection cfg validate r with
    | Except.error _ =>
        [UpgradeAct.writeRaw "HTTP/1.1 401 Unauthorized", UpgradeAct.destroy]
    | Except.ok uid =>
        if r.pathname = "/ws/prep" then [UpgradeAct.acceptVideo uid]
        else [UpgradeAct.acceptClassroom uid]

/-! ## State accessor lemmas -/

@[simp] theorem roomsOf_setRooms (c : Channel) (s : ServerState) (l : List (String × List Nat)) :
    roomsOf c (setRooms c s l) = l := by cases c <;> rfl

@[simp] theorem locksOf_setRooms (c : Channel) (s : ServerState) (l : List (String × List Nat)) :
    locksOf c (setRooms c s l) = locksOf c s := by cases c <;> rfl

@[simp] theorem roomsOf_setLocks (c : Channel) (s : ServerState) (l : List (String × Bool)) :
    roomsOf c (setLocks c s l) = roomsOf c s := by cases c <;> rfl

@[simp] theorem locksOf_setLocks (c : Channel) (s : ServerState) (l : List (String × Bool)) :
    locksOf c (setLocks c s l) = l := by cases c <;> rfl

@[simp] theorem getMeta_setRooms (c : Channel) (s : ServerState) (l : List (String × List Nat))
    (w : Nat) : getMeta (setRooms c s l) w = getMeta s w := by cases c <;> rfl

@[simp] theorem getMeta_setLocks (c : Channel) (s : ServerState) (l : List (String × Bool))
    (w : Nat) : getMeta (setLocks c s l) w = getMeta s w := by cases c <;> rfl

@[simp] theorem getMeta_setMeta_self (s : ServerState) (w : Nat) (m : Meta) :
    getMeta (setMeta s w m) w = m := by simp [getMeta, setMeta]

theorem getMeta_setMeta_ne (s : ServerState) {w w2 : Nat} (m : Meta) (h : w2 ≠ w) :
    getMeta (setMeta s w m) w2 = getMeta s w2 := by
  simp [getMeta, setMeta, lookupA_setA_ne _ _ h]

@[simp] theorem roomsOf_setMeta (c : Channel) (s : ServerState) (w : Nat) (m : Meta) :
    roomsOf c (setMeta s w m) = roomsOf c s := by cases c <;> rfl

@[simp] theorem locksOf_setMeta (c : Channel) (s : ServerState) (w : Nat) (m : Meta) :
    locksOf c (setMeta s w m) = locksOf c s := by cases c <;> rfl

@[simp] theorem openSet_setRooms (c : Channel) (s : ServerState) (l : List (String × List Nat)) :
    (setRooms c s l).openSet = s.openSet := by cases c <;> rfl

@[simp] theorem openSet_setLocks (c : Channel) (s : ServerState) (l : List (String × Bool)) :
    (setLocks c s l).openSet = s.openSet := by cases c <;> rfl

@[simp] theorem openSet_setMeta (s : ServerState) (w : Nat) (m : Meta) :
    (setMeta s w m).openSet = s.openSet := rfl

@[simp] theorem isOpen_setRooms (c : Channel) (s : ServerState) (l : List (String × List Nat))
    (w : Nat) : isOpen (setRooms c s l) w = isOpen s w := by cases c <;> rfl

@[simp] theorem isOpen_setLocks (c : Channel) (s : ServerState) (l : List (String × Bool))
    (w : Nat) : isOpen (setLocks c s l) w = isOpen s w := by cases c <;> rfl

@[simp] theorem isOpen_setMeta (s : ServerState) (w w2 : Nat) (m : Meta) :
    isOpen (setMeta s w m) w2 = isOpen s w2 := rfl

@[simp] theorem total_setRooms (c : Channel) (s : ServerState) (l : List (String × List Nat)) :
    (setRooms c s l).totalConnections = s.totalConnections := by cases c <;> rfl

@[simp] theorem total_setLocks (c : Channel) (s : ServerState) (l : List (String × Bool)) :
    (setLocks c s l).totalConnections = s.totalConnections := by cases c <;> rfl

@[simp] theorem total_setMeta (s : ServerState) (w : Nat) (m : Meta) :
    (setMeta s w m).totalConnections = s.totalConnections := rfl

@[simp] theorem byIP_setRooms (c : Channel) (s : ServerState) (l : List (String × List Nat)) :
    (setRooms c s l).connectionsByIP = s.connectionsByIP := by cases c <;> rfl

@[simp] theorem byIP_setLocks (c : Channel) (s : ServerState) (l : List (String × Bool)) :
    (setLocks c s l).connectionsByIP = s.connectionsByIP := by cases c <;> rfl

@[simp] theorem byIP_setMeta (s : ServerState) (w : Nat) (m : Meta) :
    (setMeta s w m).connectionsByIP = s.connectionsByIP := rfl

@[simp] theorem keyOf_setKey (c : Channel) (m : Meta) (v : Option String) :
    keyOf c (setKey c m v) = v := by cases c <;> rfl

@[simp] theorem ip_setKey (c : Channel) (m : Meta) (v : Option String) :
    (setKey c m v).ip = m.ip := by cases c <;> rfl

@[simp] theorem keyOf_isInitiator (c : Channel) (m : Meta) (b : Bool) :
    keyOf c { m with isInitiator := b } = keyOf c m := by cases c <;> rfl

@[simp] theorem keyOf_stamps (c : Channel) (m : Meta) (ts : List Int) :
    keyOf c { m with messageTimestamps := ts } = keyOf c m := by cases c <;> rfl

@[simp] theorem safeSend_setMeta (s : ServerState) (w : Nat) (m : Meta) (w2 : Nat) (msg : OutMsg) :
    safeSend (setMeta s w m) w2 msg = safeSend s w2 msg := by simp [safeSend]

@[simp] theorem safeSend_setRooms (c : Channel) (s : ServerState) (l : List (String × List Nat))
    (w2 : Nat) (msg : OutMsg) : safeSend (setRooms c s l) w2 msg = safeSend s w2 msg := by
  simp [safeSend]

@[simp] theorem safeSend_setLocks (c : Channel) (s : ServerState) (l : List (String × Bool))
    (w2 : Nat) (msg : OutMsg) : safeSend (setLocks c s l) w2 msg = safeSend s w2 msg := by
  simp [safeSend]

@[simp] theorem sendAll_setMeta (s : ServerState) (w : Nat) (m : Meta) (targets : List Nat)
    (msg : OutMsg) : sendAll (setMeta s w m) targets msg = sendAll s targets msg := by
  simp [sendAll, isOpen]

@[simp] theorem sendAll_setRooms (c : Channel) (s : ServerState) (l : List (String × List Nat))
    (targets : List Nat) (msg : OutMsg) :
    sendAll (setRooms c s l) targets msg = sendAll s targets msg := by
  cases c <;> simp [sendAll, isOpen]

@[simp] theorem sendAll_setLocks (c : Channel) (s : ServerState) (l : List (String × Bool))
    (targets : List Nat) (msg : OutMsg) :
    sendAll (setLocks c s l) targets msg = sendAll s targets msg := by
  cases c <;> simp [sendAll, isOpen]

/-! ## Structural lemmas about `leaveRM` -/

theorem leaveRM_openSet (c : Channel) (s : ServerState) (ws : Nat) :
    (leaveRM c s ws).1.openSet = s.openSet := by
  unfold leaveRM
  cases hk : keyOf c (getMeta s ws) with
  | none => simp only [hk]
  | some rid =>
    cases hr : lookupA rid (roomsOf c s) with
    | none => simp [hk, hr]
    | some room =>
      simp only [hk, hr]
      split <;> simp

theorem leaveRM_total (c : Channel) (s : ServerState) (ws : Nat) :
    (leaveRM c s ws).1.totalConnections = s.totalConnections := by
  unfold leaveRM
  cases hk : keyOf c (getMeta s ws) with
  | none => simp only [hk]
  | some rid =>
    cases hr : lookupA rid (roomsOf c s) with
    | none => simp [hk, hr]
    | some room =>
      simp only [hk, hr]
      split <;> simp

theorem leaveRM_byIP (c : Channel) (s : ServerState) (ws : Nat) :
    (leaveRM c s ws).1.connectionsByIP = s.connectionsByIP := by
  unfold leaveRM
  cases hk : keyOf c (getMeta s ws) with
  | none => simp only [hk]
  | some rid =>
    cases hr : lookupA rid (roomsOf c s) with
    | none => simp [hk, hr]
    | some room =>
      simp only [hk, hr]
      split <;> simp

theorem leaveRM_meta_ip (c : Channel) (s : ServerState) (ws w : Nat) :
    (getMeta (leaveRM c s ws).1 w).ip = (getMeta s w).ip := by
  unfold leaveRM
  cases hk : keyOf c (getMeta s ws) with
  | none => simp only [hk]
  | some rid =>
    cases hr : lookupA rid (roomsOf c s) with
    | none =>
      by_cases hw : w = ws
      · subst hw; simp [hk, hr]
      · simp [hk, hr, getMeta_setMeta_ne _ _ hw]
    | some room =>
      simp only [hk, hr]
      by_cases hw : w = ws
      · subst hw
        split <;> simp
      · split <;> simp [getMeta_setMeta_ne _ _ hw]

theorem leaveRM_keyOf_self (c : Channel) (s : ServerState) (ws : Nat) :
    keyOf c (getMeta (leaveRM c s ws).1 ws) = none := by
  unfold leaveRM
  cases hk : keyOf c (getMeta s ws) with
  | none => simp only [hk]
  | some rid =>
    cases hr : lookupA rid (roomsOf c s) with
    | none => simp [hk, hr]
    | some room =>
      simp only [hk, hr]
      split <;> simp

theorem leaveRM_keyOf_other (c c2 : Channel) (s : ServerState) {ws w : Nat} (h : w ≠ ws) :
    keyOf c2 (getMeta (leaveRM c s ws).1 w) = keyOf c2 (getMeta s w) := by
  unfold leaveRM
  cases hk : keyOf c (getMeta s ws) with
  | none => simp only [hk]
  | some rid =>
    cases hr : lookupA rid (roomsOf c s) with
    | none => simp [hk, hr, getMeta_setMeta_ne _ _ h]
    | some room =>
      simp only [hk, hr]
      split <;> simp [getMeta_setMeta_ne _ _ h]

theorem leaveRM_acts_send (c : Channel) (s : ServerState) (ws : Nat) :
    ∀ a ∈ (leaveRM c s ws).2, ∃ p r, a = Act.send p (OutMsg.peerLeft r) := by
  unfold leaveRM
  cases hk : keyOf c (getMeta s ws) with
  | none => simp only [hk]; intro a ha; simp at ha
  | some rid =>
    cases hr : lookupA rid (roomsOf c s) with
    | none => simp [hk, hr]
    | some room =>
      simp only [hk, hr]
      intro a ha
      split at ha
      · simp only [sendAll, List.mem_map, List.mem_filter] at ha
        obtain ⟨p, hp, hap⟩ := ha
        exact ⟨p, rid, hap.symm⟩
      · simp at ha

theorem leaveRM_lookup_of_key_ne (c : Channel) (s : ServerState) (ws : Nat) {X : String}
    (h : keyOf c (getMeta s ws) ≠ some X) :
    lookupA X (roomsOf c (leaveRM c s ws).1) = lookupA X (roomsOf c s) := by
  unfold leaveRM
  cases hk : keyOf c (getMeta s ws) with
  | none => simp only [hk]
  | some rid =>
    have hne : X ≠ rid := by
      intro he; subst he; exact h hk
    cases hr : lookupA rid (roomsOf c s) with
    | none => simp [hk, hr]
    | some room =>
      simp only [hk, hr]
      split <;> simp [lookupA_eraseA_ne _ hne, lookupA_setA_ne _ _ hne]

/-! ## Structural lemmas about `joinPost`, `joinCore` and `joinRM` -/

theorem joinPost_openSet (c : Channel) (s2 : ServerState) (actsL : List Act) (ws : Nat)
    (rid : String) : (joinPost c s2 actsL ws rid).st.openSet = s2.openSet := by
  simp only [joinPost]
  repeat' split
  all_goals simp

theorem joinPost_total (c : Channel) (s2 : ServerState) (actsL : List Act) (ws : Nat)
    (rid : String) : (joinPost c s2 actsL ws rid).st.totalConnections = s2.totalConnections := by
  simp only [joinPost]
  repeat' split
  all_goals simp

theorem joinPost_byIP (c : Channel) (s2 : ServerState) (actsL : List Act) (ws : Nat)
    (rid : String) : (joinPost c s2 actsL ws rid).st.connectionsByIP = s2.connectionsByIP := by
  simp only [joinPost]
  repeat' split
  all_goals simp

theorem joinCore_openSet (c : Channel) (s1 : ServerState) (ws : Nat) (rid : String) :
    (joinCore c s1 ws rid).st.openSet = s1.openSet := by
  simp only [joinCore]
  split <;> simp [joinPost_openSet, leaveRM_openSet]

theorem joinCore_total (c : Channel) (s1 : ServerState) (ws : Nat) (rid : String) :
    (joinCore c s1 ws rid).st.totalConnections = s1.totalConnections := by
  simp only [joinCore]
  split <;> simp [joinPost_total, leaveRM_total]

theorem joinCore_byIP (c : Channel) (s1 : ServerState) (ws : Nat) (rid : String) :
    (joinCore c s1 ws rid).st.connectionsByIP = s1.connectionsByIP := by
  simp only [joinCore]
  split <;> simp [joinPost_byIP, leaveRM_byIP]

theorem joinPost_acts_send (c : Channel) (s2 : ServerState) (actsL : List Act) (ws : Nat)
    (rid : String) (hL : ∀ a ∈ actsL, ∃ p m, a = Act.send p m) :
    ∀ a ∈ (joinPost c s2 actsL ws rid).acts, ∃ p m, a = Act.send p m := by
  have hsafe : ∀ (st : ServerState) (w : Nat) (msg : OutMsg) (a : Act),
      a ∈ safeSend st w msg → ∃ p m, a = Act.send p m := by
    intro st w msg a ha
    simp only [safeSend] at ha
    split at ha
    · simp at ha; exact ⟨w, msg, ha⟩
    · simp at ha
  have hall : ∀ (st : ServerState) (ts : List Nat) (msg : OutMsg) (a : Act),
      a ∈ sendAll st ts msg → ∃ p m, a = Act.send p m := by
    intro st ts msg a ha
    simp only [sendAll, List.mem_map, List.mem_filter] at ha
    obtain ⟨p, hp, hap⟩ := ha
    exact ⟨p, msg, hap.symm⟩
  simp only [joinPost]
  intro a ha
  repeat' split at ha
  all_goals
    repeat'
      first
        | exact hL a ha
        | exact hsafe _ _ _ a ha
        | exact hall _ _ _ a ha
        | simp at ha
        | rw [List.mem_append] at ha
        | rcases ha with ha | ha

theorem joinCore_acts_send (c : Channel) (s1 : ServerState) (ws : Nat) (rid : String) :
    ∀ a ∈ (joinCore c s1 ws rid).acts, ∃ p m, a = Act.send p m := by
  simp only [joinCore]
  split
  · refine joinPost_acts_send c _ _ ws rid ?_
    intro a ha
    obtain ⟨p, r2, hr2⟩ := leaveRM_acts_send c s1 ws a ha
    exact ⟨p, _, hr2⟩
  · refine joinPost_acts_send c _ _ ws rid ?_
    intro a ha
    simp at ha

theorem joinRM_openSet (c : Channel) (s : ServerState) (ws : Nat) (rid : String) :
    (joinRM c s ws rid).st.openSet = s.openSet := by
  unfold joinRM
  cases hv : validateRoomId (some rid) with
  | error e => simp only [hv]
  | ok r =>
    simp only [hv]
    split
    · rfl
    · split
      · rfl
      · simp [joinCore_openSet]

theorem joinRM_total (c : Channel) (s : ServerState) (ws : Nat) (rid : String) :
    (joinRM c s ws rid).st.totalConnections = s.totalConnections := by
  unfold joinRM
  cases hv : validateRoomId (some rid) with
  | error e => simp only [hv]
  | ok r =>
    simp only [hv]
    split
    · rfl
    · split
      · rfl
      · simp [joinCore_total]

theorem joinRM_byIP (c : Channel) (s : ServerState) (ws : Nat) (rid : String) :
    (joinRM c s ws rid).st.connectionsByIP = s.connectionsByIP := by
  unfold joinRM
  cases hv : validateRoomId (some rid) with
  | error e => simp only [hv]
  | ok r =>
    simp only [hv]
    split
    · rfl
    · split
      · rfl
      · simp [joinCore_byIP]

theorem joinRM_acts_send (c : Channel) (s : ServerState) (ws : Nat) (rid : String) :
    ∀ a ∈ (joinRM c s ws rid).acts, ∃ p m, a = Act.send p m := by
  have hsafe : ∀ (st : ServerState) (w : Nat) (msg : OutMsg) (a : Act),
      a ∈ safeSend st w msg → ∃ p m, a = Act.send p m := by
    intro st w msg a ha
    simp only [safeSend] at ha
    split at ha
    · simp at ha; exact ⟨w, msg, ha⟩
    · simp at ha
  unfold joinRM
  cases hv : validateRoomId (some rid) with
  | error e =>
    simp only [hv]
    intro a ha
    exact hsafe _ _ _ a ha
  | ok r =>
    simp only [hv]
    split
    · intro a ha
      exact hsafe _ _ _ a ha
    · split
      · intro a ha; simp at ha
      · intro a ha
        exact joinCore_acts_send c _ ws rid a ha

/-! ## Room-membership / meta consistency (one room per channel) -/

theorem mem_eraseA_key_ne {α β : Type} [DecidableEq α] {k : α} {p : α × β}
    {l : List (α × β)} (h : p ∈ eraseA k l) : p.1 ≠ k := by
  have := List.of_mem_filter h
  simpa using this

theorem mem_setA_strong {α β : Type} [DecidableEq α] {k : α} {v : β} {p : α × β}
    {l : List (α × β)} (h : p ∈ setA k v l) : p = (k, v) ∨ (p ∈ l ∧ p.1 ≠ k) := by
  rcases List.mem_cons.mp h with h | h
  · exact Or.inl h
  · exact Or.inr ⟨mem_eraseA_sub h, mem_eraseA_key_ne h⟩

theorem lookupA_ne_none_of_mem {α β : Type} [DecidableEq α] {k : α} {v : β}
    {l : List (α × β)} (h : (k, v) ∈ l) : lookupA k l ≠ none := by
  induction l with
  | nil => simp at h
  | cons p rest ih =>
    cases p with
    | mk k0 v0 =>
      rcases List.mem_cons.mp h with h | h
      · cases h
        simp
      · by_cases h0 : k0 = k <;> simp [h0, ih h]

/-- Every socket listed in a room's member set of channel `c` has that room
recorded under its channel meta key. -/
def MetaConsistent (c : Channel) (s : ServerState) : Prop :=
  ∀ p ∈ roomsOf c s, ∀ w ∈ p.2, keyOf c (getMeta s w) = some p.1

instance (c : Channel) (s : ServerState) : Decidable (MetaConsistent c s) := by
  unfold MetaConsistent
  infer_instance

/-- Membership of a socket in a room of a channel, read off the room map. -/
def inRoomL (c : Channel) (s : ServerState) (w : Nat) (r : String) : Prop :=
  ∃ mem, (r, mem) ∈ roomsOf c s ∧ w ∈ mem

theorem metaConsistent_setLocks (c : Channel) (s : ServerState) (lx : List (String × Bool)) :
    MetaConsistent c (setLocks c s lx) ↔ MetaConsistent c s := by
  unfold MetaConsistent
  simp

theorem not_inRoomL_of_key_none (c : Channel) (s : ServerState) (w : Nat)
    (h : MetaConsistent c s) (hk : keyOf c (getMeta s w) = none) (r : String) :
    ¬ inRoomL c s w r := by
  rintro ⟨mem, hmem, hw⟩
  have := h (r, mem) hmem w hw
  rw [hk] at this
  exact Option.noConfusion this

theorem inRoomL_unique (c : Channel) (s : ServerState) (w : Nat) (r1 r2 : String)
    (h : MetaConsistent c s) (h1 : inRoomL c s w r1) (h2 : inRoomL c s w r2) : r1 = r2 := by
  obtain ⟨m1, hm1, hw1⟩ := h1
  obtain ⟨m2, hm2, hw2⟩ := h2
  have e1 := h (r1, m1) hm1 w hw1
  have e2 := h (r2, m2) hm2 w hw2
  rw [e1] at e2
  exact (Option.some.injEq _ _).mp e2

theorem metaConsistent_setA_subset (c : Channel) (s : ServerState) (rid : String)
    (mem : List Nat) (h : MetaConsistent c s)
    (hsub : ∀ w ∈ mem, w ∈ (lookupA rid (roomsOf c s)).getD []) :
    MetaConsistent c (setRooms c s (setA rid mem (roomsOf c s))) := by
  intro p hp w2 hw2
  rw [roomsOf_setRooms] at hp
  rw [getMeta_setRooms]
  rcases mem_setA_strong hp with hp1 | ⟨hp2, _⟩
  · subst hp1
    have hmem := hsub w2 hw2
    cases hl : lookupA rid (roomsOf c s) with
    | none => rw [hl] at hmem; simp at hmem
    | some room =>
      rw [hl] at hmem
      simp at hmem
      exact h (rid, room) (mem_of_lookupA_eq_some hl) w2 hmem
  · exact h p hp2 w2 hw2

theorem metaConsistent_leaveRM (c : Channel) (s : ServerState) (ws : Nat)
    (h : MetaConsistent c s) : MetaConsistent c (leaveRM c s ws).1 := by
  unfold leaveRM
  cases hk : keyOf c (getMeta s ws) with
  | none => simpa only [hk] using h
  | some rid =>
    cases hr : lookupA rid (roomsOf c s) with
    | none =>
      simp only [hk, hr]
      intro p hp w2 hw2
      simp only [roomsOf_setMeta] at hp
      by_cases hw : w2 = ws
      · exfalso
        have hkey := h p hp w2 hw2
        rw [hw, hk] at hkey
        have hp1 : p.1 = rid := ((Option.some.injEq _ _).mp hkey).symm
        have hmem : (rid, p.2) ∈ roomsOf c s := by
          rw [← hp1]
          simpa using hp
        exact lookupA_ne_none_of_mem hmem hr
      · rw [getMeta_setMeta_ne _ _ hw]
        exact h p hp w2 hw2
    | some room =>
      simp only [hk, hr]
      intro p hp w2 hw2
      split at hp <;> rename_i hlen
      · rw [show (getMeta (setMeta (if (delMem ws room).length = 0 then
            setLocks c (setRooms c s (eraseA rid (roomsOf c s))) (eraseA rid (locksOf c s))
          else setRooms c s (setA rid (delMem ws room) (roomsOf c s))) ws
            (setKey c (getMeta s ws) none)) w2) = (getMeta (setMeta (
            setLocks c (setRooms c s (eraseA rid (roomsOf c s))) (eraseA rid (locksOf c s))) ws
            (setKey c (getMeta s ws) none)) w2) from by rw [if_pos hlen]]
        simp only [roomsOf_setMeta, roomsOf_setLocks, roomsOf_setRooms] at hp
        have hpne := mem_eraseA_key_ne hp
        have hpold := mem_eraseA_sub hp
        by_cases hw : w2 = ws
        · exfalso
          have hkey := h p hpold w2 hw2
          rw [hw, hk] at hkey
          exact hpne ((Option.some.injEq _ _).mp hkey).symm
        · simp only [getMeta_setMeta_ne _ _ hw, getMeta_setLocks, getMeta_setRooms]
          exact h p hpold w2 hw2
      · rw [show (getMeta (setMeta (if (delMem ws room).length = 0 then
            setLocks c (setRooms c s (eraseA rid (roomsOf c s))) (eraseA rid (locksOf c s))
          else setRooms c s (setA rid (delMem ws room) (roomsOf c s))) ws
            (setKey c (getMeta s ws) none)) w2) = (getMeta (setMeta (
            setRooms c s (setA rid (delMem ws room) (roomsOf c s))) ws
            (setKey c (getMeta s ws) none)) w2) from by rw [if_neg hlen]]
        simp only [roomsOf_setMeta, roomsOf_setRooms] at hp
        rcases mem_setA_strong hp with hp1 | ⟨hp2, hpne⟩
        · subst hp1
          simp only at hw2
          have hw2d := mem_delMem.mp hw2
          simp only [getMeta_setMeta_ne _ _ hw2d.2, getMeta_setRooms]
          exact h (rid, room) (mem_of_lookupA_eq_some hr) w2 hw2d.1
        · by_cases hw : w2 = ws
          · exfalso
            have hkey := h p hp2 w2 hw2
            rw [hw, hk] at hkey
            exact hpne ((Option.some.injEq _ _).mp hkey).symm
          · simp only [getMeta_setMeta_ne _ _ hw, getMeta_setRooms]
            exact h p hp2 w2 hw2

theorem metaConsistent_joinPost (c : Channel) (s2 : ServerState) (actsL : List Act)
    (ws : Nat) (rid : String) (h : MetaConsistent c s2)
    (hkey : keyOf c (getMeta s2 ws) = none ∨ keyOf c (getMeta s2 ws) = some rid) :
    MetaConsistent c (joinPost c s2 actsL ws rid).st := by
  have h3 : MetaConsistent c (setRooms c s2
      (setA rid (List.filter (fun p => isOpen s2 p) ((lookupA rid (roomsOf c s2)).getD []))
        (roomsOf c s2))) :=
    metaConsistent_setA_subset c s2 rid _ h (by
      intro w hw
      exact (List.mem_filter.mp hw).1)
  simp only [joinPost]
  split <;> rename_i hmem
  · exact (metaConsistent_setLocks c _ _).mpr h3
  · split <;> rename_i hcap
    · exact (metaConsistent_setLocks c _ _).mpr h3
    · rw [metaConsistent_setLocks]
      intro p hp w2 hw2
      simp only [roomsOf_setMeta, roomsOf_setRooms] at hp
      rcases mem_setA_strong hp with hp1 | ⟨hp2, hpne⟩
      · subst hp1
        simp only at hw2
        rcases List.mem_append.mp hw2 with hw2p | hw2w
        · have hw2ne : w2 ≠ ws := by
            intro he
            subst he
            exact hmem hw2p
          simp only [getMeta_setMeta_ne _ _ hw2ne, getMeta_setRooms]
          have hhead : (rid, List.filter (fun p => isOpen s2 p)
              ((lookupA rid (roomsOf c s2)).getD [])) ∈
              roomsOf c (setRooms c s2
                (setA rid (List.filter (fun p => isOpen s2 p)
                  ((lookupA rid (roomsOf c s2)).getD [])) (roomsOf c s2))) := by
            rw [roomsOf_setRooms]
            exact List.mem_cons_self _ _
          have := h3 _ hhead w2 hw2p
          simpa using this
        · have hwe : w2 = ws := by simpa using hw2w
          subst hwe
          simp only [getMeta_setMeta_self]
          split <;> cases c <;> simp [keyOf, setKey]
      · by_cases hw : w2 = ws
        · exfalso
          have hkey3 := h3 p (by rw [roomsOf_setRooms]; exact hp2) w2 hw2
          rw [hw] at hkey3
          simp only [getMeta_setRooms] at hkey3
          rcases hkey with hkn | hks
          · rw [hkn] at hkey3
            exact Option.noConfusion hkey3
          · rw [hks] at hkey3
            exact hpne ((Option.some.injEq _ _).mp hkey3).symm
        · simp only [getMeta_setMeta_ne _ _ hw, getMeta_setRooms]
          have := h3 p (by rw [roomsOf_setRooms]; exact hp2) w2 hw2
          simpa using this

theorem metaConsistent_joinCore (c : Channel) (s1 : ServerState) (ws : Nat) (rid : String)
    (h : MetaConsistent c s1) : MetaConsistent c (joinCore c s1 ws rid).st := by
  simp only [joinCore]
  split <;> rename_i hif
  · exact metaConsistent_joinPost c _ _ ws rid (metaConsistent_leaveRM c s1 ws h)
      (Or.inl (leaveRM_keyOf_self c s1 ws))
  · refine metaConsistent_joinPost c _ _ ws rid h ?_
    cases hmk : keyOf c (getMeta s1 ws) with
    | none => exact Or.inl rfl
    | some r0 =>
      right
      rw [hmk] at hif
      by_contra hne
      exact hif ⟨by simp, hne⟩

theorem metaConsistent_joinRM (c : Channel) (s : ServerState) (ws : Nat) (rid : String)
    (h : MetaConsistent c s) : MetaConsistent c (joinRM c s ws rid).st := by
  unfold joinRM
  cases hv : validateRoomId (some rid) with
  | error e => simpa only [hv] using h
  | ok r =>
    simp only [hv]
    split
    · exact h
    · split
      · exact h
      · refine metaConsistent_joinCore c _ ws rid ?_
        have h0 : MetaConsistent c (setLocks c s (setA rid true (locksOf c s))) :=
          (metaConsistent_setLocks c s _).mpr h
        exact metaConsistent_setA_subset c _ rid _ h0 (fun w hw => hw)

/-! ## Tracker invariant (per-address sets vs global counter) -/

def ipSumL (l : List (String × List Nat)) : Nat :=
  (l.map (fun p => p.2.length)).sum

theorem ipSum_eq_ipSumL (s : ServerState) : ipSum s = ipSumL s.connectionsByIP := rfl

theorem eraseA_eq_self_of_lookupA_none {α β : Type} [DecidableEq α] {k : α}
    {l : List (α × β)} (h : lookupA k l = none) : eraseA k l = l := by
  induction l with
  | nil => rfl
  | cons p rest ih =>
    cases p with
    | mk k0 v =>
      by_cases h0 : k0 = k
      · simp [h0] at h
      · simp [h0] at h
        simp [eraseA, List.filter_cons, h0] at ih ⊢
        exact ih h

theorem ipSumL_eraseA {l : List (String × List Nat)} (hk : (l.map Prod.fst).Nodup)
    {ip : String} {set : List Nat} (hl : lookupA ip l = some set) :
    ipSumL l = set.length + ipSumL (eraseA ip l) := by
  induction l with
  | nil => simp at hl
  | cons p rest ih =>
    cases p with
    | mk k0 v =>
      simp only [List.map_cons, List.nodup_cons] at hk
      by_cases h0 : k0 = ip
      · subst h0
        simp only [lookupA_cons, if_pos rfl] at hl
        cases hl
        have hnone : lookupA k0 rest = none := by
          cases hlr : lookupA k0 rest with
          | none => rfl
          | some v2 =>
            exfalso
            exact hk.1 (List.mem_map.mpr ⟨(k0, v2), mem_of_lookupA_eq_some hlr, rfl⟩)
        have h1 : eraseA k0 ((k0, set) :: rest) = eraseA k0 rest := by
          simp [eraseA, List.filter_cons]
        rw [h1, eraseA_eq_self_of_lookupA_none hnone]
        simp [ipSumL]
      · simp only [lookupA_cons, if_neg h0] at hl
        have := ih hk.2 hl
        have herase : eraseA ip ((k0, v) :: rest) = (k0, v) :: eraseA ip rest := by
          simp [eraseA, List.filter_cons, h0]
        rw [herase]
        simp only [ipSumL, List.map_cons, List.sum_cons] at this ⊢
        omega

theorem keys_nodup_eraseA {α β : Type} [DecidableEq α] (k : α) {l : List (α × β)}
    (h : (l.map Prod.fst).Nodup) : ((eraseA k l).map Prod.fst).Nodup := by
  have hsub : (eraseA k l).Sublist l := List.filter_sublist l
  exact (hsub.map Prod.fst).nodup h

theorem keys_nodup_setA {α β : Type} [DecidableEq α] (k : α) (v : β) {l : List (α × β)}
    (h : (l.map Prod.fst).Nodup) : ((setA k v l).map Prod.fst).Nodup := by
  simp only [setA, List.map_cons, List.nodup_cons]
  refine ⟨?_, keys_nodup_eraseA k h⟩
  intro hmem
  obtain ⟨p, hp, hpk⟩ := List.mem_map.mp hmem
  exact mem_eraseA_key_ne hp hpk

/-- The consistency invariant of the connection tracker: the per-address
sets sum to the global counter, address keys are unique, sets are
duplicate-free, and each tracked socket's recorded ip points back to its
set. -/
def TrackerInv (s : ServerState) : Prop :=
  ipSum s = s.totalConnections ∧
  (s.connectionsByIP.map Prod.fst).Nodup ∧
  ∀ p ∈ s.connectionsByIP, p.2.Nodup ∧ ∀ w ∈ p.2, (getMeta s w).ip = some p.1

instance (s : ServerState) : Decidable (TrackerInv s) := by
  unfold TrackerInv
  infer_instance

/-- A socket is currently tracked: its recorded ip maps to a set that
contains it. -/
def isTrackedB (s : ServerState) (ws : Nat) : Bool :=
  match (getMeta s ws).ip with
  | none => false
  | some ip =>
      match lookupA ip s.connectionsByIP with
      | none => false
      | some set => decide (ws ∈ set)

@[simp] theorem getMeta_setTotal (s : ServerState) (n : Nat) (w : Nat) :
    getMeta { s with totalConnections := n } w = getMeta s w := rfl

theorem getMeta_track_self (s : ServerState) (ws : Nat) (ip : String) :
    getMeta (trackConnection s ws ip) ws = { getMeta s ws with ip := some ip } := by
  simp [trackConnection, getMeta]

theorem getMeta_track_ne (s : ServerState) (ws : Nat) (ip : String) {w : Nat} (h : w ≠ ws) :
    getMeta (trackConnection s ws ip) w = getMeta s w := by
  simp [trackConnection, getMeta, lookupA_setA_ne _ _ h]

theorem byIP_track (s : ServerState) (ws : Nat) (ip : String) :
    (trackConnection s ws ip).connectionsByIP =
      setA ip (addMem ws ((lookupA ip s.connectionsByIP).getD [])) s.connectionsByIP := rfl

theorem total_track (s : ServerState) (ws : Nat) (ip : String) :
    (trackConnection s ws ip).totalConnections = s.totalConnections + 1 := rfl

theorem trackerInv_track (s : ServerState) (ws : Nat) (ip : String) (h : TrackerInv s)
    (hfresh : ∀ p ∈ s.connectionsByIP, ws ∉ p.2) :
    TrackerInv (trackConnection s ws ip) := by
  obtain ⟨hsum, hkeys, hsets⟩ := h
  rw [ipSum_eq_ipSumL] at hsum
  refine ⟨?_, ?_, ?_⟩
  · rw [ipSum_eq_ipSumL, byIP_track, total_track]
    cases hl : lookupA ip s.connectionsByIP with
    | none =>
      simp only [Option.getD_none]
      have haddm : addMem ws ([] : List Nat) = [ws] := by simp [addMem]
      rw [haddm]
      simp only [setA]
      rw [eraseA_eq_self_of_lookupA_none hl]
      simp only [ipSumL, List.map_cons, List.sum_cons, List.length_singleton]
      simp only [ipSumL] at hsum
      omega
    | some set =>
      have hws : ws ∉ set := hfresh (ip, set) (mem_of_lookupA_eq_some hl)
      simp only [Option.getD_some]
      have haddm : addMem ws set = set ++ [ws] := by simp [addMem, hws]
      rw [haddm]
      have hers := ipSumL_eraseA hkeys hl
      simp only [setA, ipSumL, List.map_cons, List.sum_cons, List.length_append,
        List.length_singleton] at hers ⊢
      simp only [ipSumL] at hsum
      omega
  · rw [byIP_track]
    exact keys_nodup_setA ip _ hkeys
  · rw [byIP_track]
    intro p hp
    rcases mem_setA_strong hp with hp1 | ⟨hp2, hpne⟩
    · subst hp1
      constructor
      · cases hl : lookupA ip s.connectionsByIP with
        | none => simp [addMem]
        | some set =>
          have hws : ws ∉ set := hfresh (ip, set) (mem_of_lookupA_eq_some hl)
          simp only [Option.getD_some, addMem, if_neg hws]
          exact List.Nodup.append (hsets (ip, set) (mem_of_lookupA_eq_some hl)).1
            (List.nodup_singleton ws) (by simpa using hws)
      · intro w hw
        rcases mem_addMem_cases hw with hw1 | hw2
        · cases hl : lookupA ip s.connectionsByIP with
          | none => rw [hl] at hw1; simp at hw1
          | some set =>
            rw [hl] at hw1
            simp only [Option.getD_some] at hw1
            have hws : ws ∉ set := hfresh (ip, set) (mem_of_lookupA_eq_some hl)
            have hwne : w ≠ ws := fun he => hws (he ▸ hw1)
            rw [getMeta_track_ne s ws ip hwne]
            exact (hsets (ip, set) (mem_of_lookupA_eq_some hl)).2 w hw1
        · subst hw2
          rw [getMeta_track_self]
    · constructor
      · exact (hsets p hp2).1
      · intro w hw
        have hwne : w ≠ ws := fun he => hfresh p hp2 (he ▸ hw)
        rw [getMeta_track_ne s ws ip hwne]
        exact (hsets p hp2).2 w hw

theorem trackerInv_untrack (s : ServerState) (ws : Nat) (h : TrackerInv s)
    (ht : isTrackedB s ws = true) : TrackerInv (untrackConnection s ws) := by
  obtain ⟨hsum, hkeys, hsets⟩ := h
  rw [ipSum_eq_ipSumL] at hsum
  unfold isTrackedB at ht
  split at ht
  · simp at ht
  · rename_i ip hip
    split at ht
    · simp at ht
    · rename_i set hl
      have hws : ws ∈ set := by simpa using ht
      have hnodup : set.Nodup := (hsets (ip, set) (mem_of_lookupA_eq_some hl)).1
      have hdel : (delMem ws set).length + 1 = set.length :=
        length_delMem_of_nodup hnodup hws
      have hers : ipSumL s.connectionsByIP =
          set.length + ipSumL (eraseA ip s.connectionsByIP) := ipSumL_eraseA hkeys hl
      unfold untrackConnection
      simp only [getMeta_setTotal, hip, hl]
      split <;> rename_i hlen
      · refine ⟨?_, ?_, ?_⟩
        · rw [ipSum_eq_ipSumL]
          simp only [ipSumL] at hers hsum ⊢
          omega
        · exact keys_nodup_eraseA ip hkeys
        · intro p hp
          have hp2 := mem_eraseA_sub hp
          exact ⟨(hsets p hp2).1, fun w hw => (hsets p hp2).2 w hw⟩
      · refine ⟨?_, ?_, ?_⟩
        · rw [ipSum_eq_ipSumL]
          have hsa : ipSumL (setA ip (delMem ws set) s.connectionsByIP) =
              (delMem ws set).length + ipSumL (eraseA ip s.connectionsByIP) := by
            simp [setA, ipSumL]
          simp only [ipSumL] at hsa hers hsum ⊢
          omega
        · exact keys_nodup_setA ip _ hkeys
        · intro p hp
          rcases mem_setA_strong hp with hp1 | ⟨hp2, hpne⟩
          · subst hp1
            refine ⟨hnodup.filter _, ?_⟩
            intro w hw
            have hw2 := mem_delMem.mp hw
            exact (hsets (ip, set) (mem_of_lookupA_eq_some hl)).2 w hw2.1
          · exact ⟨(hsets p hp2).1, fun w hw => (hsets p hp2).2 w hw⟩

theorem trackerInv_leaveRM (c : Channel) (s : ServerState) (ws : Nat) (h : TrackerInv s) :
    TrackerInv (leaveRM c s ws).1 := by
  obtain ⟨hsum, hkeys, hsets⟩ := h
  refine ⟨?_, ?_, ?_⟩
  · rw [ipSum_eq_ipSumL, leaveRM_byIP, leaveRM_total, ← ipSum_eq_ipSumL]
    exact hsum
  · rw [leaveRM_byIP]
    exact hkeys
  · rw [leaveRM_byIP]
    intro p hp
    exact ⟨(hsets p hp).1, fun w hw => by
      rw [leaveRM_meta_ip]
      exact (hsets p hp).2 w hw⟩

theorem isTrackedB_leaveRM (c : Channel) (s : ServerState) (ws w : Nat) :
    isTrackedB (leaveRM c s ws).1 w = isTrackedB s w := by
  unfold isTrackedB
  rw [leaveRM_meta_ip]
  cases (getMeta s w).ip with
  | none => rfl
  | some ip =>
    rw [leaveRM_byIP]

theorem trackerInv_onClose (c : Channel) (s : ServerState) (ws : Nat) (h : TrackerInv s)
    (ht : isTrackedB s ws = true) : TrackerInv (onCloseHandler c s ws).1 := by
  unfold onCloseHandler
  exact trackerInv_untrack _ ws (trackerInv_leaveRM c s ws h)
    (by rw [isTrackedB_leaveRM]; exact ht)

theorem trackerInv_onError (c : Channel) (s : ServerState) (ws : Nat) (h : TrackerInv s)
    (ht : isTrackedB s ws = true) : TrackerInv (onErrorHandler c s ws).1 := by
  unfold onErrorHandler
  exact trackerInv_untrack _ ws (trackerInv_leaveRM c s ws h)
    (by rw [isTrackedB_leaveRM]; exact ht)

theorem trackerInv_heartbeat_dead (c : Channel) (s : ServerState) (ws : Nat)
    (h : TrackerInv s) (ht : isTrackedB s ws = true)
    (hdead : (getMeta s ws).isAlive = false) :
    TrackerInv (heartbeatTick c s [ws]).1 := by
  unfold heartbeatTick heartbeatStep
  simp only [List.foldl_cons, List.foldl_nil, hdead, if_pos]
  exact trackerInv_untrack _ ws (trackerInv_leaveRM c s ws h)
    (by rw [isTrackedB_leaveRM]; exact ht)

/-! ## Outcome lemmas for `leaveRM` and `joinPost` -/

theorem leaveRM_noop (c : Channel) (s : ServerState) (ws : Nat)
    (h : keyOf c (getMeta s ws) = none) : leaveRM c s ws = (s, []) := by
  simp only [leaveRM, h]

theorem isOpen_leaveRM (c : Channel) (s : ServerState) (ws w : Nat) :
    isOpen (leaveRM c s ws).1 w = isOpen s w := by
  unfold isOpen
  rw [leaveRM_openSet]

theorem leaveRM_acts_eq (c : Channel) (s : ServerState) (ws : Nat) (X : String)
    (memX : List Nat) (hk : keyOf c (getMeta s ws) = some X)
    (hr : lookupA X (roomsOf c s) = some memX) :
    (leaveRM c s ws).2 =
      if (chanOpts c).notifyOnLeave then sendAll s (delMem ws memX) (OutMsg.peerLeft X)
      else [] := by
  simp only [leaveRM, hk, hr]

theorem leaveRM_classroom_acts (s : ServerState) (ws : Nat) :
    (leaveRM Channel.classroom s ws).2 = [] := by
  unfold leaveRM
  cases hk : keyOf Channel.classroom (getMeta s ws) with
  | none => simp only [hk]
  | some rid =>
    cases hr : lookupA rid (roomsOf Channel.classroom s) with
    | none => simp [hk, hr]
    | some room => simp [hk, hr, chanOpts]

/-- The room-full outcome of the locked join body: with the target room
already populated by `mem`, all of whose sockets are open, a non-member
joiner hits the capacity check. -/
theorem joinPost_full (c : Channel) (s2 : ServerState) (actsL : List Act) (ws : Nat)
    (rid : String) (mem : List Nat)
    (hr : lookupA rid (roomsOf c s2) = some mem)
    (hopen : ∀ w ∈ mem, isOpen s2 w = true)
    (hws : ws ∉ mem)
    (hcap : mem.length ≥ (chanOpts c).maxPeers) :
    joinPost c s2 actsL ws rid =
      ⟨setLocks c (setRooms c s2 (setA rid mem (roomsOf c s2)))
          (setA rid false (locksOf c (setRooms c s2 (setA rid mem (roomsOf c s2))))),
        actsL ++ safeSend (setRooms c s2 (setA rid mem (roomsOf c s2))) ws OutMsg.roomFull,
        false⟩ := by
  have hfilter : List.filter (fun p => isOpen s2 p) ((lookupA rid (roomsOf c s2)).getD [])
      = mem := by
    rw [hr]
    simp only [Option.getD_some]
    exact List.filter_eq_self.mpr hopen
  simp only [joinPost, hfilter]
  rw [if_neg hws, if_pos hcap]

/-- The successful-add outcome of the locked join body. -/
theorem joinPost_add (c : Channel) (s2 : ServerState) (actsL : List Act) (ws : Nat)
    (rid : String) (mem : List Nat)
    (hr : lookupA rid (roomsOf c s2) = some mem)
    (hopen : ∀ w ∈ mem, isOpen s2 w = true)
    (hws : ws ∉ mem)
    (hcap : mem.length < (chanOpts c).maxPeers) :
    joinPost c s2 actsL ws rid =
      (let s3 := setRooms c s2 (setA rid mem (roomsOf c s2))
      let newRoom := mem ++ [ws]
      let s4 := setRooms c s3 (setA rid newRoom (roomsOf c s3))
      let isInit := (chanOpts c).trackInitiator && decide (newRoom.length = 1)
      let m1 := setKey c (getMeta s4 ws) (some rid)
      let m2 :=
        if (chanOpts c).trackInitiator then { m1 with isInitiator := isInit } else m1
      let s5 := setMeta s4 ws m2
      ⟨setLocks c s5 (setA rid false (locksOf c s5)),
        actsL ++ safeSend s5 ws (OutMsg.joined rid isInit) ++
          (if (chanOpts c).notifyOnJoin then sendAll s5 newRoom (OutMsg.peerJoined rid)
           else []),
        true⟩) := by
  have hfilter : List.filter (fun p => isOpen s2 p) ((lookupA rid (roomsOf c s2)).getD [])
      = mem := by
    rw [hr]
    simp only [Option.getD_some]
    exact List.filter_eq_self.mpr hopen
  simp only [joinPost, hfilter]
  rw [if_neg hws, if_neg (by omega : ¬ mem.length ≥ (chanOpts c).maxPeers)]

/-- After the locked join body, the joiner's channel key is either the target
room (successful add) or whatever it was before (no-op or room-full). -/
theorem joinPost_keyOf (c : Channel) (s2 : ServerState) (actsL : List Act) (ws : Nat)
    (rid : String) :
    keyOf c (getMeta (joinPost c s2 actsL ws rid).st ws) = some rid ∨
      keyOf c (getMeta (joinPost c s2 actsL ws rid).st ws) = keyOf c (getMeta s2 ws) := by
  simp only [joinPost]
  split
  · right
    simp
  · split
    · right
      simp
    · left
      simp only [getMeta_setLocks, getMeta_setMeta_self]
      split <;> cases c <;> simp [keyOf, setKey]

/-- Entry checks of `join` passed: the call reduces to the locked body on the
state holding the lock and the ensured room entry. -/
theorem joinRM_main (c : Channel) (s : ServerState) (ws : Nat) (rid : String)
    (hok : roomIdOk rid = true) (hne : rid ≠ "")
    (hlim : ¬((lookupA rid (roomsOf c s)).isNone = true ∧
      (roomsOf c s).length ≥ (chanOpts c).maxRooms))
    (hlock : ¬((lookupA rid (locksOf c s)).getD false = true)) :
    joinRM c s ws rid =
      joinCore c (setRooms c (setLocks c s (setA rid true (locksOf c s)))
        (setA rid ((lookupA rid (roomsOf c s)).getD []) (roomsOf c s))) ws rid := by
  have hv : validateRoomId (some rid) = Except.ok rid := by
    simp [validateRoomId, hne, hok]
  simp only [joinRM, hv, roomsOf_setLocks]
  rw [if_neg hlim, if_neg hlock]

/-! ## C7: leave is idempotent -/

/-- C7: `leave` on a connection not currently in a room of the channel is a
no-op — the state and the emitted messages are unchanged — and a second
`leave` after any `leave` is likewise a no-op. -/
theorem C7_leave_idempotent :
    (∀ (c : Channel) (s : ServerState) (ws : Nat),
      keyOf c (getMeta s ws) = none → leaveRM c s ws = (s, [])) ∧
    (∀ (c : Channel) (s : ServerState) (ws : Nat),
      leaveRM c (leaveRM c s ws).1 ws = ((leaveRM c s ws).1, [])) :=
  ⟨fun c s ws h => leaveRM_noop c s ws h,
   fun c s ws => leaveRM_noop c (leaveRM c s ws).1 ws (leaveRM_keyOf_self c s ws)⟩

theorem C7_leave_idempotent_witness :
    leaveRM Channel.video { openSet := [1] } 5 = ({ openSet := [1] }, []) ∧
    leaveRM Channel.video (leaveRM Channel.video { openSet := [1] } 5).1 5 =
      ((leaveRM Channel.video { openSet := [1] } 5).1, []) :=
  ⟨C7_leave_idempotent.1 Channel.video { openSet := [1] } 5 (by rfl),
   C7_leave_idempotent.2 Channel.video { openSet := [1] } 5⟩

/-! ## C10: classroom channel behavior -/

/-- Acts that notify peers of membership changes. -/
def peerNotice : Act → Bool
  | Act.send _ (OutMsg.peerJoined _) => true
  | Act.send _ (OutMsg.peerLeft _) => true
  | _ => false

theorem joinPost_classroom_acts (s2 : ServerState) (ws : Nat) (rid : String) :
    ∀ a ∈ (joinPost Channel.classroom s2 [] ws rid).acts,
      a = Act.send ws OutMsg.roomFull ∨ a = Act.send ws (OutMsg.joined rid false) := by
  intro a ha
  simp only [joinPost, chanOpts] at ha
  simp only [if_neg (show ¬ (false = true) by simp), Bool.false_and,
    List.nil_append] at ha
  repeat' split at ha
  all_goals try simp only [safeSend] at ha
  all_goals try split at ha
  all_goals simp at ha
  all_goals simp [ha]

theorem joinRM_classroom_acts (s : ServerState) (ws : Nat) (rid : String) :
    ∀ a ∈ (joinRM Channel.classroom s ws rid).acts,
      (∃ msg, a = Act.send ws (OutMsg.error msg)) ∨ a = Act.send ws OutMsg.roomFull ∨
        a = Act.send ws (OutMsg.joined rid false) := by
  unfold joinRM
  cases hv : validateRoomId (some rid) with
  | error e =>
    simp only [hv]
    intro a ha
    simp only [safeSend] at ha
    split at ha
    · simp at ha
      exact Or.inl ⟨e, ha⟩
    · simp at ha
  | ok r =>
    simp only [hv]
    split
    · intro a ha
      simp only [safeSend] at ha
      split at ha
      · simp at ha
        exact Or.inl ⟨_, ha⟩
      · simp at ha
    · split
      · intro a ha
        simp at ha
      · intro a ha
        simp only [joinCore] at ha
        split at ha
        · rw [leaveRM_classroom_acts] at ha
          rcases joinPost_classroom_acts _ ws rid a ha with h | h
          · exact Or.inr (Or.inl h)
          · exact Or.inr (Or.inr h)
        · rcases joinPost_classroom_acts _ ws rid a ha with h | h
          · exact Or.inr (Or.inl h)
          · exact Or.inr (Or.inr h)

/-- C10: on the classroom channel a successful join still sends a `joined`
acknowledgment whose `isInitiator` is always false, and no `peer-joined` or
`peer-left` notification is ever emitted by a classroom join or leave. -/
theorem C10_classroom_channel :
    (∀ (s : ServerState) (ws : Nat) (rid : String) (a : Act),
        a ∈ (joinRM Channel.classroom s ws rid).acts → peerNotice a = false) ∧
    (∀ (s : ServerState) (ws : Nat), (leaveRM Channel.classroom s ws).2 = []) ∧
    (∀ (s : ServerState) (ws : Nat) (rid : String) (w : Nat) (r : String) (b : Bool),
        Act.send w (OutMsg.joined r b) ∈ (joinRM Channel.classroom s ws rid).acts →
          b = false) ∧
    (∀ (s : ServerState) (ws : Nat) (rid : String),
        roomIdOk rid = true → rid ≠ "" →
        lookupA rid (roomsOf Channel.classroom s) = none →
        (roomsOf Channel.classroom s).length < (chanOpts Channel.classroom).maxRooms →
        ¬((lookupA rid (locksOf Channel.classroom s)).getD false = true) →
        keyOf Channel.classroom (getMeta s ws) = none →
        isOpen s ws = true →
        Act.send ws (OutMsg.joined rid false) ∈ (joinRM Channel.classroom s ws rid).acts) := by
  refine ⟨?_, ?_, ?_, ?_⟩
  · intro s ws rid a ha
    rcases joinRM_classroom_acts s ws rid a ha with ⟨msg, he⟩ | he | he <;>
      subst he <;> rfl
  · intro s ws
    exact leaveRM_classroom_acts s ws
  · intro s ws rid w r b ha
    rcases joinRM_classroom_acts s ws rid _ ha with ⟨msg, he⟩ | he | he
    · exact absurd he (by simp)
    · exact absurd he (by simp)
    · cases he
      rfl
  · intro s ws rid hok hne hr hcap hlock hkey hopen
    rw [joinRM_main Channel.classroom s ws rid hok hne (by simp [hr]; omega) hlock]
    have hkey1 : keyOf Channel.classroom (getMeta (setRooms Channel.classroom
        (setLocks Channel.classroom s (setA rid true (locksOf Channel.classroom s)))
        (setA rid ((lookupA rid (roomsOf Channel.classroom s)).getD [])
          (roomsOf Channel.classroom s))) ws) = none := by
      simp [hkey]
    simp only [joinCore, hkey1]
    rw [if_neg (by simp)]
    rw [joinPost_add Channel.classroom _ [] ws rid []
      (by rw [roomsOf_setRooms, hr]; simp)
      (by intro w hw; simp at hw)
      (by simp)
      (by decide)]
    simp only [chanOpts]
    simp only [if_neg (show ¬ (false = true) by simp), Bool.false_and, List.nil_append,
      List.append_nil]
    simp only [safeSend]
    rw [if_pos (show isOpen _ ws = true by
      simp only [isOpen_setMeta, isOpen_setRooms, isOpen_setLocks]
      exact hopen)]
    simp

theorem C10_classroom_channel_witness :
    peerNotice (Act.send 1 (OutMsg.joined "room1" false)) = false ∧
    (leaveRM Channel.classroom { openSet := [1] } 1).2 = [] ∧
    false = false ∧
    Act.send 1 (OutMsg.joined "room1" false) ∈
      (joinRM Channel.classroom { openSet := [1] } 1 "room1").acts :=
  ⟨C10_classroom_channel.1 { openSet := [1] } 1 "room1"
      (Act.send 1 (OutMsg.joined "room1" false)) (by decide),
   C10_classroom_channel.2.1 { openSet := [1] } 1,
   C10_classroom_channel.2.2.1 { openSet := [1] } 1 "room1" 1 "room1" false (by decide),
   C10_classroom_channel.2.2.2 { openSet := [1] } 1 "room1" (by decide) (by decide)
     (by decide) (by decide) (by decide) (by decide) (by decide)⟩

/-! ## C8: rate limiting before parsing -/

/-- C8: a connection whose recorded in-window timestamps have reached the
maximum gets an error reply and the message is dropped before any parsing or
dispatch — the state change is only the timestamp pruning, uniformly in the
message (malformed frames included), and the socket is not closed; a message
under the limit is dispatched normally with its timestamp recorded. -/
theorem C8_rate_limit :
    (∀ (c : Channel) (now : Int) (s : ServerState) (ws : Nat) (m : InMsg),
      ((getMeta s ws).messageTimestamps.filter
          (fun t => decide (t > now - CONFIG.RATE_LIMIT_WINDOW_MS))).length ≥
        CONFIG.RATE_LIMIT_MAX_MESSAGES →
      handleMessage c now s ws m =
        (setMeta s ws { getMeta s ws with
            messageTimestamps := (getMeta s ws).messageTimestamps.filter
              (fun t => decide (t > now - CONFIG.RATE_LIMIT_WINDOW_MS)) },
          safeSend s ws (OutMsg.error "Rate limit exceeded"))) ∧
    (∀ (c : Channel) (now : Int) (s : ServerState) (ws : Nat) (m : InMsg),
      ((getMeta s ws).messageTimestamps.filter
          (fun t => decide (t > now - CONFIG.RATE_LIMIT_WINDOW_MS))).length <
        CONFIG.RATE_LIMIT_MAX_MESSAGES →
      handleMessage c now s ws m =
        dispatchMessage c (setMeta s ws { getMeta s ws with
            messageTimestamps := ((getMeta s ws).messageTimestamps.filter
              (fun t => decide (t > now - CONFIG.RATE_LIMIT_WINDOW_MS))) ++ [now] })
          ws m) := by
  constructor
  · intro c now s ws m h
    simp only [handleMessage, checkRateLimit]
    rw [if_neg (by decide : ¬ ((!CONFIG.RATE_LIMIT_ENABLED) = true))]
    rw [if_pos h]
    simp
  · intro c now s ws m h
    simp only [handleMessage, checkRateLimit]
    rw [if_neg (by decide : ¬ ((!CONFIG.RATE_LIMIT_ENABLED) = true))]
    rw [if_neg (by omega : ¬ ((getMeta s ws).messageTimestamps.filter
        (fun t => decide (t > now - CONFIG.RATE_LIMIT_WINDOW_MS))).length ≥
      CONFIG.RATE_LIMIT_MAX_MESSAGES)]
    simp

def c8busy : ServerState :=
  { openSet := [1], metas := [(1, { messageTimestamps := List.replicate 50 5 })] }

def c8idle : ServerState := { openSet := [1] }

theorem C8_rate_limit_witness :
    handleMessage Channel.video 100 c8busy 1 InMsg.leaveMsg =
      (setMeta c8busy 1 { getMeta c8busy 1 with
          messageTimestamps := (getMeta c8busy 1).messageTimestamps.filter
            (fun t => decide (t > 100 - CONFIG.RATE_LIMIT_WINDOW_MS)) },
        safeSend c8busy 1 (OutMsg.error "Rate limit exceeded")) ∧
    handleMessage Channel.video 100 c8idle 1 InMsg.leaveMsg =
      dispatchMessage Channel.video (setMeta c8idle 1 { getMeta c8idle 1 with
          messageTimestamps := ((getMeta c8idle 1).messageTimestamps.filter
            (fun t => decide (t > 100 - CONFIG.RATE_LIMIT_WINDOW_MS))) ++ [100] }) 1
        InMsg.leaveMsg :=
  ⟨C8_rate_limit.1 Channel.video 100 c8busy 1 InMsg.leaveMsg (by decide),
   C8_rate_limit.2 Channel.video 100 c8idle 1 InMsg.leaveMsg (by decide)⟩

/-! ## C2: tracker counter vs per-address sets -/

theorem trackerInv_setMeta_unlisted (s : ServerState) (ws : Nat) (m2 : Meta)
    (h : TrackerInv s) (hfresh : ∀ p ∈ s.connectionsByIP, ws ∉ p.2) :
    TrackerInv (setMeta s ws m2) := by
  obtain ⟨hsum, hkeys, hsets⟩ := h
  refine ⟨by simpa [ipSum] using hsum, by simpa using hkeys, ?_⟩
  intro p hp
  rw [byIP_setMeta] at hp
  refine ⟨(hsets p hp).1, ?_⟩
  intro w hw
  have hwne : w ≠ ws := fun he => hfresh p hp (he ▸ hw)
  rw [getMeta_setMeta_ne _ _ hwne]
  exact (hsets p hp).2 w hw

theorem trackerInv_setMeta_keepIp (s : ServerState) (ws : Nat) (m2 : Meta)
    (h : TrackerInv s) (hip : m2.ip = (getMeta s ws).ip) :
    TrackerInv (setMeta s ws m2) := by
  obtain ⟨hsum, hkeys, hsets⟩ := h
  refine ⟨by simpa [ipSum] using hsum, by simpa using hkeys, ?_⟩
  intro p hp
  rw [byIP_setMeta] at hp
  refine ⟨(hsets p hp).1, ?_⟩
  intro w hw
  by_cases hwe : w = ws
  · subst hwe
    rw [getMeta_setMeta_self, hip]
    exact (hsets p hp).2 w hw
  · rw [getMeta_setMeta_ne _ _ hwe]
    exact (hsets p hp).2 w hw

theorem trackerInv_onConnection (s : ServerState) (ws : Nat) (ip : String)
    (h : TrackerInv s) (hfresh : ∀ p ∈ s.connectionsByIP, ws ∉ p.2) :
    TrackerInv (onConnectionHandler s ws ip) := by
  unfold onConnectionHandler
  refine trackerInv_setMeta_keepIp _ ws _ ?_ rfl
  refine trackerInv_track _ ws ip ?_ ?_
  · exact trackerInv_setMeta_unlisted s ws _ h hfresh
  · simpa using hfresh

def c2trace : List Ev :=
  [Ev.evConnect Channel.video 1 "a", Ev.evConnect Channel.video 2 "a",
   Ev.evError Channel.video 1, Ev.evClose Channel.video 1]

/-- C2 counterexample: two connections from the same address; the first
errors (running the error handler) and then — as the ws library guarantees —
also closes (running the close handler).  `untrackConnection` runs twice for
it: the clamped counter reaches 0 while the per-address sets still hold one
connection, so the claimed always-equal invariant is false at this instant,
and the second terminal event removed the connection from no set. -/
theorem C2_counterexample :
    (runEvs initialState c2trace).totalConnections = 0 ∧
    ipSum (runEvs initialState c2trace) = 1 ∧
    ¬ (ipSum (runEvs initialState c2trace) =
        (runEvs initialState c2trace).totalConnections) := by
  decide

/-- C2 amended: the invariant — per-address set sizes summing to the global
counter, with consistent back-pointers — is preserved by a connection
arrival and by each terminal handler (close, error, heartbeat termination)
provided the connection is still tracked when that handler runs, i.e. the
cleanup runs at most once per connection. -/
theorem C2_tracker_amended :
    (∀ (s : ServerState) (ws : Nat) (ip : String), TrackerInv s →
        (∀ p ∈ s.connectionsByIP, ws ∉ p.2) →
        TrackerInv (onConnectionHandler s ws ip)) ∧
    (∀ (c : Channel) (s : ServerState) (ws : Nat), TrackerInv s →
        isTrackedB s ws = true → TrackerInv (onCloseHandler c s ws).1) ∧
    (∀ (c : Channel) (s : ServerState) (ws : Nat), TrackerInv s →
        isTrackedB s ws = true → TrackerInv (onErrorHandler c s ws).1) ∧
    (∀ (c : Channel) (s : ServerState) (ws : Nat), TrackerInv s →
        isTrackedB s ws = true → (getMeta s ws).isAlive = false →
        TrackerInv (heartbeatTick c s [ws]).1) :=
  ⟨trackerInv_onConnection, trackerInv_onClose, trackerInv_onError,
    trackerInv_heartbeat_dead⟩

def c2tracked : ServerState :=
  { metas := [(1, { ip := some "a" })], totalConnections := 1,
    connectionsByIP := [("a", [1])] }

def c2dead : ServerState :=
  { metas := [(1, { ip := some "a", isAlive := false })], totalConnections := 1,
    connectionsByIP := [("a", [1])] }

theorem C2_tracker_amended_witness :
    TrackerInv (onConnectionHandler initialState 1 "a") ∧
    TrackerInv (onCloseHandler Channel.video c2tracked 1).1 ∧
    TrackerInv (onErrorHandler Channel.video c2tracked 1).1 ∧
    TrackerInv (heartbeatTick Channel.video c2dead [1]).1 :=
  ⟨C2_tracker_amended.1 initialState 1 "a" (by decide) (by decide),
   C2_tracker_amended.2.1 Channel.video c2tracked 1 (by decide) (by decide),
   C2_tracker_amended.2.2.1 Channel.video c2tracked 1 (by decide) (by decide),
   C2_tracker_amended.2.2.2 Channel.video c2dead 1 (by decide) (by decide) (by decide)⟩

/-! ## C6: upgrade-time gatekeeper -/

/-- C6: the upgrade checks run in order (path, origin, quota, auth), each
short-circuiting with its documented outcome: unknown path destroys the
socket with no status line; an origin outside a configured non-empty
allowlist gets a 403 status line then destruction; an exceeded global or
per-address quota gets 503 then destruction; failed authentication (when
enabled) gets 401 then destruction; an absent or empty allowlist disables
the origin check; and no rejection path ever emits a WebSocket frame. -/
theorem C6_upgrade_gatekeeper :
    (∀ (cfg : Config) (v : String → TokenResult) (s : ServerState) (r : UpgradeRequest),
        r.urlParseOk = true → r.pathname ≠ "/ws/prep" → r.pathname ≠ "/ws/classroom" →
        upgradeHandler cfg v s r = [UpgradeAct.destroy]) ∧
    (∀ (cfg : Config) (v : String → TokenResult) (s : ServerState) (r : UpgradeRequest)
        (l : List String) (o : String),
        r.urlParseOk = true →
        (r.pathname = "/ws/prep" ∨ r.pathname = "/ws/classroom") →
        cfg.ALLOWED_ORIGINS = some l → l ≠ [] → r.origin = some o → o ∉ l →
        upgradeHandler cfg v s r =
          [UpgradeAct.writeRaw "HTTP/1.1 403 Forbidden", UpgradeAct.destroy]) ∧
    (∀ (cfg : Config) (v : String → TokenResult) (s : ServerState) (r : UpgradeRequest),
        r.urlParseOk = true →
        (r.pathname = "/ws/prep" ∨ r.pathname = "/ws/classroom") →
        validateOrigin cfg r.origin = true →
        (s.totalConnections ≥ cfg.MAX_CONNECTIONS_TOTAL ∨
          (∃ set, lookupA (getClientIP r) s.connectionsByIP = some set ∧
            set.length ≥ cfg.MAX_CONNECTIONS_PER_IP)) →
        upgradeHandler cfg v s r =
          [UpgradeAct.writeRaw "HTTP/1.1 503 Service Unavailable", UpgradeAct.destroy]) ∧
    (∀ (cfg : Config) (v : String → TokenResult) (s : ServerState) (r : UpgradeRequest)
        (e : String),
        r.urlParseOk = true →
        (r.pathname = "/ws/prep" ∨ r.pathname = "/ws/classroom") →
        validateOrigin cfg r.origin = true →
        canAcceptConnection cfg s (getClientIP r) = true →
        cfg.AUTH_ENABLED = true →
        authenticateConnection cfg v r = Except.error e →
        upgradeHandler cfg v s r =
          [UpgradeAct.writeRaw "HTTP/1.1 401 Unauthorized", UpgradeAct.destroy]) ∧
    (∀ (cfg : Config) (o : Option String),
        (cfg.ALLOWED_ORIGINS = none ∨ cfg.ALLOWED_ORIGINS = some []) →
        validateOrigin cfg o = true) ∧
    (∀ (cfg : Config) (v : String → TokenResult) (s : ServerState) (r : UpgradeRequest)
        (m : OutMsg), UpgradeAct.wsFrame m ∉ upgradeHandler cfg v s r) := by
  refine ⟨?_, ?_, ?_, ?_, ?_, ?_⟩
  · intro cfg v s r hparse hp1 hp2
    unfold upgradeHandler
    rw [if_neg (by simp [hparse]), if_pos ⟨hp1, hp2⟩]
  · intro cfg v s r l o hparse hpath hcfg hl ho hmem
    have horig : validateOrigin cfg r.origin = false := by
      rw [validateOrigin, hcfg, ho]
      simp only [if_neg hl]
      simpa using hmem
    unfold upgradeHandler
    rw [if_neg (by simp [hparse]),
      if_neg (by rcases hpath with h | h <;> simp [h]),
      if_pos (by simp [horig])]
  · intro cfg v s r hparse hpath horig hq
    have hacc : canAcceptConnection cfg s (getClientIP r) = false := by
      rcases hq with hq | ⟨set, hset, hlen⟩
      · simp [canAcceptConnection, hq]
      · by_cases ht : s.totalConnections ≥ cfg.MAX_CONNECTIONS_TOTAL
        · simp [canAcceptConnection, ht]
        · simp [canAcceptConnection, ht, hset, hlen]
    unfold upgradeHandler
    rw [if_neg (by simp [hparse]),
      if_neg (by rcases hpath with h | h <;> simp [h]),
      if_neg (by simp [horig]),
      if_pos (by simp [hacc])]
  · intro cfg v s r e hparse hpath horig hacc hauth herr
    unfold upgradeHandler
    rw [if_neg (by simp [hparse]),
      if_neg (by rcases hpath with h | h <;> simp [h]),
      if_neg (by simp [horig]),
      if_neg (by simp [hacc]),
      herr]
  · intro cfg o hcfg
    rcases hcfg with h | h <;> simp [validateOrigin, h]
  · intro cfg v s r m
    unfold upgradeHandler
    repeat' split
    all_goals simp

def alwaysValidToken : String → TokenResult := fun _ => { valid := true }

def alwaysInvalidToken : String → TokenResult := fun _ => { valid := false }

def c6origCfg : Config := { CONFIG with ALLOWED_ORIGINS := some ["https://app.example"] }

def c6authCfg : Config := { CONFIG with AUTH_ENABLED := true }

def c6badPath : UpgradeRequest := { pathname := "/nope" }

def c6badOrigin : UpgradeRequest :=
  { pathname := "/ws/prep", origin := some "https://evil.example" }

def c6prep : UpgradeRequest := { pathname := "/ws/prep" }

def c6full : ServerState := { totalConnections := 10000 }

theorem C6_upgrade_gatekeeper_witness :
    upgradeHandler CONFIG alwaysValidToken initialState c6badPath =
      [UpgradeAct.destroy] ∧
    upgradeHandler c6origCfg alwaysValidToken initialState c6badOrigin =
      [UpgradeAct.writeRaw "HTTP/1.1 403 Forbidden", UpgradeAct.destroy] ∧
    upgradeHandler CONFIG alwaysValidToken c6full c6prep =
      [UpgradeAct.writeRaw "HTTP/1.1 503 Service Unavailable", UpgradeAct.destroy] ∧
    upgradeHandler c6authCfg alwaysInvalidToken initialState c6prep =
      [UpgradeAct.writeRaw "HTTP/1.1 401 Unauthorized", UpgradeAct.destroy] ∧
    validateOrigin CONFIG (some "https://anywhere.example") = true ∧
    UpgradeAct.wsFrame OutMsg.roomFull ∉
      upgradeHandler CONFIG alwaysValidToken initialState c6badPath :=
  ⟨C6_upgrade_gatekeeper.1 CONFIG alwaysValidToken initialState c6badPath
      rfl (by decide) (by decide),
   C6_upgrade_gatekeeper.2.1 c6origCfg alwaysValidToken initialState c6badOrigin
      ["https://app.example"] "https://evil.example" rfl (Or.inl rfl) rfl (by decide) rfl
      (by decide),
   C6_upgrade_gatekeeper.2.2.1 CONFIG alwaysValidToken c6full c6prep rfl (Or.inl rfl)
      (by decide) (Or.inl (by decide)),
   C6_upgrade_gatekeeper.2.2.2.1 c6authCfg alwaysInvalidToken initialState c6prep
      "No authentication token provided" rfl (Or.inl rfl) (by decide) (by decide) rfl
      rfl,
   C6_upgrade_gatekeeper.2.2.2.2.1 CONFIG (some "https://anywhere.example") (Or.inr rfl),
   C6_upgrade_gatekeeper.2.2.2.2.2 CONFIG alwaysValidToken initialState c6badPath
      OutMsg.roomFull⟩

/-! ## C5: signal validation and relay -/

/-- The state after a passed rate-limit check: pruned window plus the new
timestamp. -/
def rlStamped (now : Int) (s : ServerState) (ws : Nat) : ServerState :=
  setMeta s ws { getMeta s ws with
    messageTimestamps := ((getMeta s ws).messageTimestamps.filter
      (fun t => decide (t > now - CONFIG.RATE_LIMIT_WINDOW_MS))) ++ [now] }

theorem handleMessage_rl_pass (c : Channel) (now : Int) (s : ServerState) (ws : Nat)
    (m : InMsg)
    (h : ((getMeta s ws).messageTimestamps.filter
        (fun t => decide (t > now - CONFIG.RATE_LIMIT_WINDOW_MS))).length <
      CONFIG.RATE_LIMIT_MAX_MESSAGES) :
    handleMessage c now s ws m = dispatchMessage c (rlStamped now s ws) ws m := by
  simp only [handleMessage, checkRateLimit, rlStamped]
  rw [if_neg (by decide : ¬ ((!CONFIG.RATE_LIMIT_ENABLED) = true))]
  rw [if_neg (by omega : ¬ ((getMeta s ws).messageTimestamps.filter
      (fun t => decide (t > now - CONFIG.RATE_LIMIT_WINDOW_MS))).length ≥
    CONFIG.RATE_LIMIT_MAX_MESSAGES)]
  simp

theorem keyOf_rlStamped (c : Channel) (now : Int) (s : ServerState) (ws : Nat) :
    keyOf c (getMeta (rlStamped now s ws) ws) = keyOf c (getMeta s ws) := by
  simp [rlStamped]

theorem validateSignalPayload_CONFIG (st : Option String) (d0 : JVal) :
    validateSignalPayload CONFIG st (some d0) =
      if d0 = JVal.null then some "Missing signal data"
      else if (serializedData d0).length > CONFIG.MAX_SIGNAL_DATA_SIZE then
        some "Signal data too large"
      else none := by
  simp [validateSignalPayload, CONFIG]

theorem broadcastRM_eq (c : Channel) (s : ServerState) (ws : Nat) (rid : String)
    (mem : List Nat) (m : OutMsg) (hkey : keyOf c (getMeta s ws) = some rid)
    (hroom : lookupA rid (roomsOf c s) = some mem) :
    broadcastRM c s ws m =
      (mem.filter (fun p => decide (p ≠ ws) && isOpen s p)).map
        (fun p => Act.send p m) := by
  simp only [broadcastRM, hkey, hroom]

/-- C5: a `signal` from a connection not in a room is answered with an error
and forwarded to no one; a `signal` whose serialized data exceeds the
configured maximum is answered with an error and forwarded to no one; a
valid `signal` is relayed with identical `signalType` and `data` to exactly
the other open members of the sender's room — non-open peers are skipped
and the sender never receives its own broadcast. -/
theorem C5_signal_handling :
    (∀ (c : Channel) (now : Int) (s : ServerState) (ws : Nat) (st : Option String)
        (d : Option JVal),
      ((getMeta s ws).messageTimestamps.filter
          (fun t => decide (t > now - CONFIG.RATE_LIMIT_WINDOW_MS))).length <
        CONFIG.RATE_LIMIT_MAX_MESSAGES →
      keyOf c (getMeta s ws) = none →
      handleMessage c now s ws (InMsg.signalMsg st d) =
        (rlStamped now s ws, safeSend s ws (OutMsg.error "Not in a room"))) ∧
    (∀ (c : Channel) (now : Int) (s : ServerState) (ws : Nat) (st : Option String)
        (rid : String) (d0 : JVal),
      ((getMeta s ws).messageTimestamps.filter
          (fun t => decide (t > now - CONFIG.RATE_LIMIT_WINDOW_MS))).length <
        CONFIG.RATE_LIMIT_MAX_MESSAGES →
      keyOf c (getMeta s ws) = some rid →
      d0 ≠ JVal.null →
      (serializedData d0).length > CONFIG.MAX_SIGNAL_DATA_SIZE →
      handleMessage c now s ws (InMsg.signalMsg st (some d0)) =
        (rlStamped now s ws, safeSend s ws (OutMsg.error "Signal data too large"))) ∧
    (∀ (c : Channel) (now : Int) (s : ServerState) (ws : Nat) (st : Option String)
        (rid : String) (d0 : JVal) (mem : List Nat),
      ((getMeta s ws).messageTimestamps.filter
          (fun t => decide (t > now - CONFIG.RATE_LIMIT_WINDOW_MS))).length <
        CONFIG.RATE_LIMIT_MAX_MESSAGES →
      keyOf c (getMeta s ws) = some rid →
      lookupA rid (roomsOf c s) = some mem →
      d0 ≠ JVal.null →
      (serializedData d0).length ≤ CONFIG.MAX_SIGNAL_DATA_SIZE →
      handleMessage c now s ws (InMsg.signalMsg st (some d0)) =
        (rlStamped now s ws,
          (mem.filter (fun p => decide (p ≠ ws) && isOpen s p)).map
            (fun p => Act.send p (OutMsg.signal st (some d0)))) ∧
      (∀ m2 : OutMsg,
        Act.send ws m2 ∉ (handleMessage c now s ws (InMsg.signalMsg st (some d0))).2)) := by
  refine ⟨?_, ?_, ?_⟩
  · intro c now s ws st d hrl hkey
    rw [handleMessage_rl_pass c now s ws _ hrl]
    simp only [dispatchMessage, getRoomIdRM, (keyOf_rlStamped c now s ws).trans hkey]
    simp [rlStamped]
  · intro c now s ws st rid d0 hrl hkey hnull hsize
    have hval : validateSignalPayload CONFIG st (some d0) = some "Signal data too large" := by
      rw [validateSignalPayload_CONFIG, if_neg hnull, if_pos hsize]
    rw [handleMessage_rl_pass c now s ws _ hrl]
    simp only [dispatchMessage, getRoomIdRM, (keyOf_rlStamped c now s ws).trans hkey, hval]
    simp [rlStamped]
  · intro c now s ws st rid d0 mem hrl hkey hroom hnull hsize
    have hval : validateSignalPayload CONFIG st (some d0) = none := by
      rw [validateSignalPayload_CONFIG, if_neg hnull, if_neg (by omega)]
    have hmain : handleMessage c now s ws (InMsg.signalMsg st (some d0)) =
        (rlStamped now s ws,
          (mem.filter (fun p => decide (p ≠ ws) && isOpen s p)).map
            (fun p => Act.send p (OutMsg.signal st (some d0)))) := by
      rw [handleMessage_rl_pass c now s ws _ hrl]
      simp only [dispatchMessage, getRoomIdRM, (keyOf_rlStamped c now s ws).trans hkey,
        hval]
      rw [broadcastRM_eq c (rlStamped now s ws) ws rid mem _
        ((keyOf_rlStamped c now s ws).trans hkey) (by simpa [rlStamped] using hroom)]
      have hfe : mem.filter (fun p => decide (p ≠ ws) && isOpen (rlStamped now s ws) p) =
          mem.filter (fun p => decide (p ≠ ws) && isOpen s p) := by
        simp [rlStamped, isOpen]
      rw [hfe]
    refine ⟨hmain, ?_⟩
    intro m2 hmem
    rw [hmain] at hmem
    simp only [List.mem_map, List.mem_filter] at hmem
    obtain ⟨p, ⟨hpmem, hpf⟩, hpa⟩ := hmem
    have hpws : p = ws := by
      have := congrArg (fun a => match a with | Act.send w _ => w | _ => 0) hpa
      simpa using this
    subst hpws
    simp at hpf

def c5noRoom : ServerState := { openSet := [1] }

def c5inRoom : ServerState :=
  { openSet := [1, 2], videoRooms := [("r", [1, 2])],
    metas := [(1, { videoRoomId := some "r" })] }

def bigData : JVal := JVal.str (String.mk (List.replicate 262145 'a'))

theorem c5big_len : (serializedData bigData).length = 262145 := by
  show (List.replicate 262145 'a').length = 262145
  exact List.length_replicate 262145 'a' 

theorem C5_signal_handling_witness :
    handleMessage Channel.video 0 c5noRoom 1
        (InMsg.signalMsg (some "offer") (some (JVal.str "x"))) =
      (rlStamped 0 c5noRoom 1, safeSend c5noRoom 1 (OutMsg.error "Not in a room")) ∧
    handleMessage Channel.video 0 c5inRoom 1
        (InMsg.signalMsg (some "offer") (some bigData)) =
      (rlStamped 0 c5inRoom 1, safeSend c5inRoom 1 (OutMsg.error "Signal data too large")) ∧
    handleMessage Channel.video 0 c5inRoom 1
        (InMsg.signalMsg (some "offer") (some (JVal.str "x"))) =
      (rlStamped 0 c5inRoom 1,
        ([1, 2].filter (fun p => decide (p ≠ 1) && isOpen c5inRoom p)).map
          (fun p => Act.send p (OutMsg.signal (some "offer") (some (JVal.str "x"))))) ∧
    Act.send 1 (OutMsg.signal (some "offer") (some (JVal.str "x"))) ∉
      (handleMessage Channel.video 0 c5inRoom 1
        (InMsg.signalMsg (some "offer") (some (JVal.str "x")))).2 :=
  ⟨C5_signal_handling.1 Channel.video 0 c5noRoom 1 (some "offer") (some (JVal.str "x"))
      (by decide) (by decide),
   C5_signal_handling.2.1 Channel.video 0 c5inRoom 1 (some "offer") "r" bigData
      (by decide) (by decide)
      (by unfold bigData; intro h; exact JVal.noConfusion h)
      (by rw [c5big_len]; decide),
   (C5_signal_handling.2.2 Channel.video 0 c5inRoom 1 (some "offer") "r" (JVal.str "x")
      [1, 2] (by decide) (by decide) (by decide) (by decide) (by decide)).1,
   (C5_signal_handling.2.2 Channel.video 0 c5inRoom 1 (some "offer") "r" (JVal.str "x")
      [1, 2] (by decide) (by decide) (by decide) (by decide) (by decide)).2
     (OutMsg.signal (some "offer") (some (JVal.str "x")))⟩

/-! ## C3: join on a full room -/

/-- C3: joining a room that already holds `maxPeers` open members, as a
non-member, never changes the room's membership, sends the joiner a
`room-full` reply, reports failure, and does not close any socket — the
open-socket set is untouched and every emitted act is a message send. -/
theorem C3_room_full :
    ∀ (c : Channel) (s : ServerState) (ws : Nat) (rid : String) (mem : List Nat),
      roomIdOk rid = true → rid ≠ "" →
      lookupA rid (roomsOf c s) = some mem →
      mem.length = (chanOpts c).maxPeers →
      (∀ w ∈ mem, isOpen s w = true) →
      ws ∉ mem →
      isOpen s ws = true →
      ¬((lookupA rid (locksOf c s)).getD false = true) →
      lookupA rid (roomsOf c (joinRM c s ws rid).st) = some mem ∧
      Act.send ws OutMsg.roomFull ∈ (joinRM c s ws rid).acts ∧
      (joinRM c s ws rid).ok = false ∧
      (joinRM c s ws rid).st.openSet = s.openSet ∧
      (∀ a ∈ (joinRM c s ws rid).acts, ∃ p m, a = Act.send p m) := by
  intro c s ws rid mem hok hne hr hlen hopen hws hwsopen hlock
  refine ⟨?_, ?_, ?_, joinRM_openSet c s ws rid, joinRM_acts_send c s ws rid⟩ <;>
    (rw [joinRM_main c s ws rid hok hne (by simp [hr]) hlock,
        show (lookupA rid (roomsOf c s)).getD [] = mem from by rw [hr]; rfl]
     simp only [joinCore]
     split <;> rename_i hif
     · rw [joinPost_full c _ _ ws rid mem
          (by rw [leaveRM_lookup_of_key_ne c _ ws hif.2]
              simp)
          (by intro w hw
              rw [isOpen_leaveRM]
              simp only [isOpen_setRooms, isOpen_setLocks]
              exact hopen w hw)
          hws (by omega)]
       try simp [safeSend, isOpen_leaveRM, hwsopen]
     · rw [joinPost_full c _ _ ws rid mem (by simp)
          (by intro w hw
              simp only [isOpen_setRooms, isOpen_setLocks]
              exact hopen w hw)
          hws (by omega)]
       try simp [safeSend, hwsopen])

def c3state : ServerState :=
  { openSet := [1, 2, 3], videoRooms := [("abc", [1, 2])],
    metas := [(1, { videoRoomId := some "abc" }), (2, { videoRoomId := some "abc" })] }

theorem C3_room_full_witness :
    lookupA "abc" (roomsOf Channel.video (joinRM Channel.video c3state 3 "abc").st) =
      some [1, 2] ∧
    Act.send 3 OutMsg.roomFull ∈ (joinRM Channel.video c3state 3 "abc").acts ∧
    (joinRM Channel.video c3state 3 "abc").ok = false ∧
    (joinRM Channel.video c3state 3 "abc").st.openSet = c3state.openSet ∧
    (∀ a ∈ (joinRM Channel.video c3state 3 "abc").acts, ∃ p m, a = Act.send p m) :=
  C3_room_full Channel.video c3state 3 "abc" [1, 2] (by decide) (by decide) (by decide)
    (by decide) (by decide) (by decide) (by decide) (by decide)

/-! ## C9: failed room switch is not atomic -/

/-- C9: a connection in room `X` that joins a different, full room `Y` is
removed from `X` (with `peer-left` sent to `X`'s remaining open members when
the channel notifies on leave) before the capacity check fires, so after the
`room-full` reply it belongs to no room at all. -/
theorem C9_nonatomic_switch :
    ∀ (c : Channel) (s : ServerState) (ws : Nat) (X Y : String) (memX memY : List Nat),
      MetaConsistent c s →
      roomIdOk Y = true → Y ≠ "" →
      keyOf c (getMeta s ws) = some X → X ≠ Y →
      lookupA X (roomsOf c s) = some memX → ws ∈ memX →
      lookupA Y (roomsOf c s) = some memY →
      memY.length = (chanOpts c).maxPeers →
      (∀ w ∈ memY, isOpen s w = true) →
      ws ∉ memY →
      isOpen s ws = true →
      ¬((lookupA Y (locksOf c s)).getD false = true) →
      Act.send ws OutMsg.roomFull ∈ (joinRM c s ws Y).acts ∧
      (joinRM c s ws Y).ok = false ∧
      keyOf c (getMeta (joinRM c s ws Y).st ws) = none ∧
      (∀ r : String, ¬ inRoomL c (joinRM c s ws Y).st ws r) ∧
      ((chanOpts c).notifyOnLeave = true →
        ∀ p ∈ memX, p ≠ ws → isOpen s p = true →
          Act.send p (OutMsg.peerLeft X) ∈ (joinRM c s ws Y).acts) := by
  intro c s ws X Y memX memY hMC hok hne hkey hXY hrX hmemX hrY hlen hopenY hwsY hwsopen hlock
  have hmain := joinRM_main c s ws Y hok hne (by simp [hrY]) hlock
  rw [show (lookupA Y (roomsOf c s)).getD [] = memY from by rw [hrY]; rfl] at hmain
  set S1 := setRooms c (setLocks c s (setA Y true (locksOf c s)))
    (setA Y memY (roomsOf c s)) with hS1def
  have hk1 : keyOf c (getMeta S1 ws) = some X := by
    rw [hS1def]
    simp [hkey]
  have hkne : ¬ keyOf c (getMeta S1 ws) = some Y := by
    rw [hk1]
    intro h
    exact hXY (Option.some.inj h)
  have hcore : joinRM c s ws Y =
      joinPost c (leaveRM c S1 ws).1 (leaveRM c S1 ws).2 ws Y := by
    rw [hmain]
    simp only [joinCore]
    rw [if_pos ⟨by rw [hk1]; rfl, hkne⟩]
  have hrY1 : lookupA Y (roomsOf c S1) = some memY := by
    rw [hS1def]
    simp
  have hrY2 : lookupA Y (roomsOf c (leaveRM c S1 ws).1) = some memY := by
    rw [leaveRM_lookup_of_key_ne c S1 ws hkne]
    exact hrY1
  have hopen2 : ∀ w ∈ memY, isOpen (leaveRM c S1 ws).1 w = true := by
    intro w hw
    rw [isOpen_leaveRM, hS1def]
    simp only [isOpen_setRooms, isOpen_setLocks]
    exact hopenY w hw
  have hfull := joinPost_full c (leaveRM c S1 ws).1 (leaveRM c S1 ws).2 ws Y memY hrY2
    hopen2 hwsY (by omega)
  have heq := hcore.trans hfull
  have hrX1 : lookupA X (roomsOf c S1) = some memX := by
    rw [hS1def]
    rw [roomsOf_setRooms, lookupA_setA_ne _ _ hXY]
    exact hrX
  have hactsL := leaveRM_acts_eq c S1 ws X memX hk1 hrX1
  have hkeynone : keyOf c (getMeta (joinRM c s ws Y).st ws) = none := by
    rw [heq]
    simp only [getMeta_setLocks, getMeta_setRooms]
    exact leaveRM_keyOf_self c S1 ws
  refine ⟨?_, ?_, hkeynone, ?_, ?_⟩
  · rw [heq]
    simp only [List.mem_append]
    right
    have hopen3 : isOpen (setRooms c (leaveRM c S1 ws).1
        (setA Y memY (roomsOf c (leaveRM c S1 ws).1))) ws = true := by
      simp only [isOpen_setRooms]
      rw [isOpen_leaveRM, hS1def]
      simpa using hwsopen
    simp [safeSend, hopen3]
  · rw [heq]
  · intro r
    exact not_inRoomL_of_key_none c _ ws (metaConsistent_joinRM c s ws Y hMC) hkeynone r
  · intro hnotif p hp hpne hpopen
    rw [heq]
    simp only [List.mem_append]
    left
    rw [hactsL, if_pos hnotif]
    simp only [sendAll, List.mem_map, List.mem_filter]
    refine ⟨p, ⟨?_, ?_⟩, rfl⟩
    · exact mem_delMem.mpr ⟨hp, hpne⟩
    · rw [hS1def]
      simp only [isOpen_setRooms, isOpen_setLocks]
      exact hpopen

def c9state : ServerState :=
  { openSet := [1, 2, 3, 4], videoRooms := [("xxx", [1, 4]), ("yyy", [2, 3])],
    metas := [(1, { videoRoomId := some "xxx" }), (4, { videoRoomId := some "xxx" }),
      (2, { videoRoomId := some "yyy" }), (3, { videoRoomId := some "yyy" })] }

theorem C9_nonatomic_switch_witness :
    Act.send 1 OutMsg.roomFull ∈ (joinRM Channel.video c9state 1 "yyy").acts ∧
    (joinRM Channel.video c9state 1 "yyy").ok = false ∧
    keyOf Channel.video (getMeta (joinRM Channel.video c9state 1 "yyy").st 1) = none ∧
    (∀ r : String, ¬ inRoomL Channel.video (joinRM Channel.video c9state 1 "yyy").st 1 r) ∧
    ((chanOpts Channel.video).notifyOnLeave = true →
      ∀ p ∈ [1, 4], p ≠ 1 → isOpen c9state p = true →
        Act.send p (OutMsg.peerLeft "xxx") ∈ (joinRM Channel.video c9state 1 "yyy").acts) :=
  C9_nonatomic_switch Channel.video c9state 1 "xxx" "yyy" [1, 4] [2, 3] (by decide)
    (by decide) (by decide) (by decide) (by decide) (by decide) (by decide) (by decide)
    (by decide) (by decide) (by decide) (by decide) (by decide)

/-! ## C1: initiator assignment on the video channel -/

theorem joinRM_add_facts (c : Channel) (s : ServerState) (ws : Nat) (rid : String)
    (mem : List Nat)
    (hok : roomIdOk rid = true) (hne : rid ≠ "")
    (hget : (lookupA rid (roomsOf c s)).getD [] = mem)
    (hlim : ¬((lookupA rid (roomsOf c s)).isNone = true ∧
      (roomsOf c s).length ≥ (chanOpts c).maxRooms))
    (hlock : ¬((lookupA rid (locksOf c s)).getD false = true))
    (hkey : keyOf c (getMeta s ws) = none)
    (hopen : ∀ w ∈ mem, isOpen s w = true)
    (hws : ws ∉ mem)
    (hcap : mem.length < (chanOpts c).maxPeers) :
    (joinRM c s ws rid).acts =
      safeSend s ws (OutMsg.joined rid
        ((chanOpts c).trackInitiator && decide (mem.length + 1 = 1))) ++
      (if (chanOpts c).notifyOnJoin then
        sendAll s (mem ++ [ws]) (OutMsg.peerJoined rid) else []) ∧
    lookupA rid (roomsOf c (joinRM c s ws rid).st) = some (mem ++ [ws]) ∧
    (lookupA rid (locksOf c (joinRM c s ws rid).st)).getD false = false ∧
    (∀ w, w ≠ ws → getMeta (joinRM c s ws rid).st w = getMeta s w) ∧
    (joinRM c s ws rid).st.openSet = s.openSet ∧
    keyOf c (getMeta (joinRM c s ws rid).st ws) = some rid := by
  have hmain := joinRM_main c s ws rid hok hne hlim hlock
  rw [hget] at hmain
  set S1 := setRooms c (setLocks c s (setA rid true (locksOf c s)))
    (setA rid mem (roomsOf c s)) with hS1def
  have hk1 : keyOf c (getMeta S1 ws) = none := by
    rw [hS1def]
    simp [hkey]
  have hcore : joinRM c s ws rid = joinPost c S1 [] ws rid := by
    rw [hmain]
    simp only [joinCore]
    rw [if_neg (by rw [hk1]; simp)]
  have hr1 : lookupA rid (roomsOf c S1) = some mem := by
    rw [hS1def]
    simp
  have hopen1 : ∀ w ∈ mem, isOpen S1 w = true := by
    intro w hw
    rw [hS1def]
    simp only [isOpen_setRooms, isOpen_setLocks]
    exact hopen w hw
  have heq := hcore.trans (joinPost_add c S1 [] ws rid mem hr1 hopen1 hws hcap)
  refine ⟨?_, ?_, ?_, ?_, ?_, ?_⟩ <;> rw [heq]
  · simp [hS1def, List.length_append]
  · simp
  · simp
  · intro w hw
    simp only [getMeta_setLocks, getMeta_setMeta_ne _ _ hw, getMeta_setRooms]
    rw [hS1def]
    simp
  · simp [hS1def]
  · simp only [getMeta_setLocks, getMeta_setMeta_self]
    split <;> cases c <;> simp [keyOf, setKey]

def c1state : ServerState := { openSet := [1, 2] }

/-- C1: counterexample. The claim says the first joiner of a fresh video room
receives `joined` with `isInitiator = false` and the second joiner receives
`isInitiator = true`. In the code `isInitiator = trackInitiator && room.size === 1`
is computed AFTER the joiner is added, so the FIRST joiner gets `true` and the
second gets `false` — the opposite of the claim. -/
theorem C1_counterexample :
    (joinRM Channel.video c1state 1 "abc").acts =
      [Act.send 1 (OutMsg.joined "abc" true), Act.send 1 (OutMsg.peerJoined "abc")] ∧
    Act.send 1 (OutMsg.joined "abc" false) ∉ (joinRM Channel.video c1state 1 "abc").acts ∧
    (joinRM Channel.video (joinRM Channel.video c1state 1 "abc").st 2 "abc").acts =
      [Act.send 2 (OutMsg.joined "abc" false), Act.send 1 (OutMsg.peerJoined "abc"),
        Act.send 2 (OutMsg.peerJoined "abc")] ∧
    Act.send 2 (OutMsg.joined "abc" true) ∉
      (joinRM Channel.video (joinRM Channel.video c1state 1 "abc").st 2 "abc").acts := by
  decide

/-- C1 (amended): on the video channel, for a fresh room the FIRST joiner's
`joined` acknowledgment carries `isInitiator = true` and the SECOND joiner's
carries `isInitiator = false`; after the second join both members receive a
`peer-joined` notification. -/
theorem C1_initiator_amended (s : ServerState) (w1 w2 : Nat) (rid : String)
    (hne12 : w1 ≠ w2)
    (hok : roomIdOk rid = true) (hrid : rid ≠ "")
    (hfresh : lookupA rid (roomsOf Channel.video s) = none)
    (hlim : (roomsOf Channel.video s).length < (chanOpts Channel.video).maxRooms)
    (hlock : ¬((lookupA rid (locksOf Channel.video s)).getD false = true))
    (hk1 : keyOf Channel.video (getMeta s w1) = none)
    (hk2 : keyOf Channel.video (getMeta s w2) = none)
    (ho1 : isOpen s w1 = true) (ho2 : isOpen s w2 = true) :
    Act.send w1 (OutMsg.joined rid true) ∈ (joinRM Channel.video s w1 rid).acts ∧
    Act.send w2 (OutMsg.joined rid false) ∈
      (joinRM Channel.video (joinRM Channel.video s w1 rid).st w2 rid).acts ∧
    Act.send w1 (OutMsg.peerJoined rid) ∈
      (joinRM Channel.video (joinRM Channel.video s w1 rid).st w2 rid).acts ∧
    Act.send w2 (OutMsg.peerJoined rid) ∈
      (joinRM Channel.video (joinRM Channel.video s w1 rid).st w2 rid).acts := by
  have hf1 := joinRM_add_facts Channel.video s w1 rid [] hok hrid
    (by rw [hfresh]; rfl)
    (by intro ⟨_, hge⟩; omega)
    hlock hk1 (by intro w hw; cases hw) (by simp) (by decide)
  obtain ⟨hacts1, hroom1, hlock1, hmeta1, hopen1, -⟩ := hf1
  set R1 := (joinRM Channel.video s w1 rid).st with hR1def
  have hOpenR1 : ∀ w, isOpen R1 w = isOpen s w := by
    intro w
    unfold isOpen
    rw [hopen1]
  have hroom1' : lookupA rid (roomsOf Channel.video R1) = some [w1] := by
    rw [hroom1]
    rfl
  have hf2 := joinRM_add_facts Channel.video R1 w2 rid [w1] hok hrid
    (by rw [hroom1']; rfl)
    (by rintro ⟨hnone, -⟩; rw [hroom1'] at hnone; cases hnone)
    (by rw [hlock1]; simp)
    (by rw [hmeta1 w2 (Ne.symm hne12)]; exact hk2)
    (by intro w hw; simp at hw; subst hw; rw [hOpenR1]; exact ho1)
    (by simp [Ne.symm hne12])
    (by simp [chanOpts, CONFIG])
  obtain ⟨hacts2, -, -, -, -, -⟩ := hf2
  refine ⟨?_, ?_, ?_, ?_⟩
  · rw [hacts1]
    simp [safeSend, sendAll, chanOpts, ho1]
  · rw [hacts2]
    simp [safeSend, sendAll, chanOpts, hOpenR1, ho1, ho2]
  · rw [hacts2]
    simp [safeSend, sendAll, chanOpts, hOpenR1, ho1, ho2]
  · rw [hacts2]
    simp [safeSend, sendAll, chanOpts, hOpenR1, ho1, ho2]

theorem C1_initiator_amended_witness :
    Act.send 1 (OutMsg.joined "abc" true) ∈ (joinRM Channel.video c1state 1 "abc").acts ∧
    Act.send 2 (OutMsg.joined "abc" false) ∈
      (joinRM Channel.video (joinRM Channel.video c1state 1 "abc").st 2 "abc").acts ∧
    Act.send 1 (OutMsg.peerJoined "abc") ∈
      (joinRM Channel.video (joinRM Channel.video c1state 1 "abc").st 2 "abc").acts ∧
    Act.send 2 (OutMsg.peerJoined "abc") ∈
      (joinRM Channel.video (joinRM Channel.video c1state 1 "abc").st 2 "abc").acts :=
  C1_initiator_amended c1state 1 2 "abc" (by decide) (by decide) (by decide)
    (by decide) (by decide) (by decide) (by decide) (by decide) (by decide) (by decide)

/-! ## C4: at most one room per channel, implicit leave on switch -/

def c4state : ServerState :=
  { openSet := [1, 2],
    videoRooms := [("xxx", [1])],
    metas := [(1, { videoRoomId := some "xxx" })] }

/-- C4: a connection is a member of at most one room of a channel at any
instant (room/meta consistency makes membership unique and is preserved by
both `join` and `leave`), and a `join` naming a different room while the
connection is already in a room performs an implicit leave of the old room
first, so after the join the connection is no longer in the old room. -/
theorem C4_one_room_per_channel (c : Channel) (s : ServerState) (ws : Nat)
    (rid X : String) (hMC : MetaConsistent c s)
    (hX : keyOf c (getMeta s ws) = some X) (hXne : X ≠ rid) :
    (∀ w r1 r2, inRoomL c s w r1 → inRoomL c s w r2 → r1 = r2) ∧
    MetaConsistent c (joinRM c s ws rid).st ∧
    MetaConsistent c (leaveRM c s ws).1 ∧
    joinCore c s ws rid =
      joinPost c (leaveRM c s ws).1 (leaveRM c s ws).2 ws rid ∧
    ¬ inRoomL c (joinCore c s ws rid).st ws X := by
  have himpl : joinCore c s ws rid =
      joinPost c (leaveRM c s ws).1 (leaveRM c s ws).2 ws rid := by
    simp only [joinCore, hX]
    rw [if_pos ⟨rfl, by simp [hXne]⟩]
  refine ⟨fun w r1 r2 h1 h2 => inRoomL_unique c s w r1 r2 hMC h1 h2,
    metaConsistent_joinRM c s ws rid hMC,
    metaConsistent_leaveRM c s ws hMC, himpl, ?_⟩
  have hMC2 : MetaConsistent c (joinCore c s ws rid).st :=
    metaConsistent_joinCore c s ws rid hMC
  have hkey : keyOf c (getMeta (joinCore c s ws rid).st ws) = some rid ∨
      keyOf c (getMeta (joinCore c s ws rid).st ws) = none := by
    rw [himpl]
    rcases joinPost_keyOf c (leaveRM c s ws).1 (leaveRM c s ws).2 ws rid with h | h
    · exact Or.inl h
    · right
      rw [h]
      exact leaveRM_keyOf_self c s ws
  rintro ⟨mem, hmem, hwmem⟩
  have hx := hMC2 (X, mem) hmem ws hwmem
  rcases hkey with h | h
  · rw [hx] at h
    exact hXne ((Option.some.injEq _ _).mp h)
  · rw [hx] at h
    exact Option.noConfusion h

theorem C4_one_room_per_channel_witness :
    (∀ w r1 r2, inRoomL Channel.video c4state w r1 →
      inRoomL Channel.video c4state w r2 → r1 = r2) ∧
    MetaConsistent Channel.video (joinRM Channel.video c4state 1 "yyy").st ∧
    MetaConsistent Channel.video (leaveRM Channel.video c4state 1).1 ∧
    joinCore Channel.video c4state 1 "yyy" =
      joinPost Channel.video (leaveRM Channel.video c4state 1).1
        (leaveRM Channel.video c4state 1).2 1 "yyy" ∧
    ¬ inRoomL Channel.video (joinCore Channel.video c4state 1 "yyy").st 1 "xxx" :=
  C4_one_room_per_channel Channel.video c4state 1 "yyy" "xxx"
    (by decide) (by decide) (by decide)
